import Mathlib

/-!
Verification of the Longevity Ledger repository (two source variants:
`src/src/App.tsx`, the feature-complete variant, and `src/unnamed/part_000`,
the minimal "compile-safe" variant).

The embedding below models, from the source:
  * the record types and the `Ledger` aggregate (`App.tsx` lines 7-79);
  * the fixed profile set and the per-profile storage key (`App.tsx` 82-84);
  * JSON values as a tree (`Json`), `JSON.stringify` of a ledger as
    `ledgerToJson` (serialization omits `undefined` optional fields), and the
    reading of a parsed JSON value back into a `Ledger` as `jsonToLedger`
    (field lookups on the parsed object, as the views perform them);
  * a fuel-indexed executable JSON text parser `parseJson` modelling the
    syntactic behaviour of `JSON.parse` (numbers are read exactly as
    rationals, abstracting from binary floating point);
  * `loadFor`/the load effect, the save effect, import, and the
    profile-switch state machine of the `App` component.

JavaScript numbers are abstracted as exact rationals (`Rat`): the program
performs no arithmetic on stored measurements, only storage and display.
String comparison by `localeCompare` on ISO dates is modelled as
code-point-wise lexicographic comparison, which coincides with it on the
ASCII digit/hyphen alphabet of ISO dates.
-/

/-! ## Data model (`App.tsx` lines 7-79) -/

/-- `BloodPanel` record (`App.tsx` lines 7-25): every measurement field is
optional; absence means "not measured this panel". -/
structure BloodPanel where
  id : String
  date : String
  lab : Option String := none
  apoB : Option Rat := none
  ldl : Option Rat := none
  hdl : Option Rat := none
  tg : Option Rat := none
  lpa : Option Rat := none
  hscrp : Option Rat := none
  a1c : Option Rat := none
  fastingGlucose : Option Rat := none
  fastingInsulin : Option Rat := none
  alt : Option Rat := none
  ast : Option Rat := none
  creatinine : Option Rat := none
  egfr : Option Rat := none
  uric : Option Rat := none
  tsh : Option Rat := none
  ft4 : Option Rat := none
  vitaminD : Option Rat := none
  ferritin : Option Rat := none
  b12 : Option Rat := none
  folate : Option Rat := none
  notes : Option String := none
  deriving DecidableEq, Repr

/-- The fixed imaging-study type enumeration (`App.tsx` line 30). -/
inductive ImagingType where
  | cac
  | fullBodyMRI
  | dexa
  | carotidUltrasound
  | colonoscopy
  | other
  deriving DecidableEq, Repr

/-- `ImagingStudy` record (`App.tsx` lines 27-34). -/
structure ImagingStudy where
  id : String
  date : String
  type : ImagingType
  resultSummary : Option String := none
  numericResult : Option Rat := none
  site : Option String := none
  deriving DecidableEq, Repr

/-- `Vitals` record (`App.tsx` lines 36-46). -/
structure Vitals where
  id : String
  date : String
  weightKg : Option Rat := none
  waistCm : Option Rat := none
  heightCm : Option Rat := none
  systolic : Option Rat := none
  diastolic : Option Rat := none
  restingHR : Option Rat := none
  hrv : Option Rat := none
  deriving DecidableEq, Repr

/-- `FitnessTest` record (`App.tsx` lines 48-57). -/
structure FitnessTest where
  id : String
  date : String
  vo2max : Option Rat := none
  gripLeft : Option Rat := none
  gripRight : Option Rat := none
  sitToStand1min : Option Rat := none
  zone2MinsPerWeek : Option Rat := none
  vigorousMinsPerWeek : Option Rat := none
  deriving DecidableEq, Repr

/-- The `"Medication" | "Supplement"` tag (`App.tsx` line 62). -/
inductive MedKind where
  | medication
  | supplement
  deriving DecidableEq, Repr

/-- `MedOrSupp` record (`App.tsx` lines 59-66): `name` is required. -/
structure MedOrSupp where
  id : String
  date : String
  kind : MedKind
  name : String
  dose : Option String := none
  notes : Option String := none
  deriving DecidableEq, Repr

/-- `Note` record (`App.tsx` line 68): `text` is required. -/
structure Note where
  id : String
  date : String
  text : String
  deriving DecidableEq, Repr

/-- The `Ledger` aggregate of six ordered collections (`App.tsx` lines 70-77). -/
structure Ledger where
  bloods : List BloodPanel
  imaging : List ImagingStudy
  vitals : List Vitals
  fitness : List FitnessTest
  meds : List MedOrSupp
  notes : List Note
  deriving DecidableEq, Repr

/-- The canonical empty ledger `EMPTY` (`App.tsx` line 79). -/
def EMPTY : Ledger :=
  { bloods := [], imaging := [], vitals := [], fitness := [], meds := [], notes := [] }

/-! ## Profiles and storage keys (`App.tsx` lines 82-84, `part_000` 12-14) -/

/-- The fixed profile set `PROFILES = ["Paul", "Claire"]`. -/
inductive Profile where
  | paul
  | claire
  deriving DecidableEq, Repr

/-- The display/storage name of a profile. -/
def Profile.name : Profile → String
  | .paul => "Paul"
  | .claire => "Claire"

/-- `storageKey(p)`, the persisted slot name for a profile:
a fixed prefix concatenated with the profile name. -/
def storageKey (p : Profile) : String :=
  "longevity-ledger-" ++ p.name

/-! ## JSON values

`Json` is the tree of JSON values: the result of `JSON.parse`, and the
value serialized by `JSON.stringify`. JavaScript objects have unique keys,
so the parser below collapses duplicate textual keys (last value wins) the
way `JSON.parse` does; an object is an ordered association list. -/

/-- A JSON value tree. Numbers are exact rationals. -/
inductive Json where
  | null
  | bool (b : Bool)
  | num (q : Rat)
  | str (s : String)
  | arr (elems : List Json)
  | obj (entries : List (String × Json))

/-- Key lookup on a parsed JSON object: JavaScript property access. -/
def jlookup (k : String) (l : List (String × Json)) : Option Json :=
  (l.find? (fun p => p.1 = k)).map (fun p => p.2)

/-! ## Serialization: `JSON.stringify` of a ledger

`JSON.stringify` emits object keys in property insertion order and omits
properties whose value is `undefined`, so an optional field contributes an
entry exactly when it is present. -/

/-- Entry list contributed by an optional numeric field. -/
def optNum (k : String) (v : Option Rat) : List (String × Json) :=
  match v with
  | none => []
  | some q => [(k, Json.num q)]

/-- Entry list contributed by an optional string field. -/
def optStr (k : String) (v : Option String) : List (String × Json) :=
  match v with
  | none => []
  | some s => [(k, Json.str s)]

/-- The wire string of an imaging-study type (`App.tsx` line 30). -/
def ImagingType.wire : ImagingType → String
  | .cac => "CAC"
  | .fullBodyMRI => "Full body MRI"
  | .dexa => "DEXA"
  | .carotidUltrasound => "Carotid ultrasound"
  | .colonoscopy => "Colonoscopy"
  | .other => "Other"

/-- The wire string of a medication/supplement kind (`App.tsx` line 62). -/
def MedKind.wire : MedKind → String
  | .medication => "Medication"
  | .supplement => "Supplement"

/-- The object entries of a serialized blood panel: keys in declaration
order, absent optional fields omitted. -/
def bloodEntries (b : BloodPanel) : List (String × Json) :=
  ([("id", Json.str b.id), ("date", Json.str b.date)]
    ++ optStr "lab" b.lab ++ optNum "apoB" b.apoB ++ optNum "ldl" b.ldl
    ++ optNum "hdl" b.hdl ++ optNum "tg" b.tg ++ optNum "lpa" b.lpa
    ++ optNum "hscrp" b.hscrp ++ optNum "a1c" b.a1c
    ++ optNum "fastingGlucose" b.fastingGlucose
    ++ optNum "fastingInsulin" b.fastingInsulin
    ++ optNum "alt" b.alt ++ optNum "ast" b.ast
    ++ optNum "creatinine" b.creatinine ++ optNum "egfr" b.egfr
    ++ optNum "uric" b.uric ++ optNum "tsh" b.tsh ++ optNum "ft4" b.ft4
    ++ optNum "vitaminD" b.vitaminD ++ optNum "ferritin" b.ferritin
    ++ optNum "b12" b.b12 ++ optNum "folate" b.folate
    ++ optStr "notes" b.notes)

/-- `JSON.stringify` of a blood panel. -/
def bloodToJson (b : BloodPanel) : Json :=
  Json.obj (bloodEntries b)

/-- The object entries of a serialized imaging study. -/
def imagingEntries (x : ImagingStudy) : List (String × Json) :=
  ([("id", Json.str x.id), ("date", Json.str x.date),
      ("type", Json.str x.type.wire)]
    ++ optStr "resultSummary" x.resultSummary
    ++ optNum "numericResult" x.numericResult
    ++ optStr "site" x.site)

/-- `JSON.stringify` of an imaging study. -/
def imagingToJson (x : ImagingStudy) : Json :=
  Json.obj (imagingEntries x)

/-- The object entries of a serialized vitals record. -/
def vitalsEntries (v : Vitals) : List (String × Json) :=
  ([("id", Json.str v.id), ("date", Json.str v.date)]
    ++ optNum "weightKg" v.weightKg ++ optNum "waistCm" v.waistCm
    ++ optNum "heightCm" v.heightCm ++ optNum "systolic" v.systolic
    ++ optNum "diastolic" v.diastolic ++ optNum "restingHR" v.restingHR
    ++ optNum "hrv" v.hrv)

/-- `JSON.stringify` of a vitals record. -/
def vitalsToJson (v : Vitals) : Json :=
  Json.obj (vitalsEntries v)

/-- The object entries of a serialized fitness test. -/
def fitnessEntries (f : FitnessTest) : List (String × Json) :=
  ([("id", Json.str f.id), ("date", Json.str f.date)]
    ++ optNum "vo2max" f.vo2max ++ optNum "gripLeft" f.gripLeft
    ++ optNum "gripRight" f.gripRight
    ++ optNum "sitToStand1min" f.sitToStand1min
    ++ optNum "zone2MinsPerWeek" f.zone2MinsPerWeek
    ++ optNum "vigorousMinsPerWeek" f.vigorousMinsPerWeek)

/-- `JSON.stringify` of a fitness test. -/
def fitnessToJson (f : FitnessTest) : Json :=
  Json.obj (fitnessEntries f)

/-- The object entries of a serialized medication/supplement. -/
def medEntries (m : MedOrSupp) : List (String × Json) :=
  ([("id", Json.str m.id), ("date", Json.str m.date),
      ("kind", Json.str m.kind.wire), ("name", Json.str m.name)]
    ++ optStr "dose" m.dose ++ optStr "notes" m.notes)

/-- `JSON.stringify` of a medication/supplement. -/
def medToJson (m : MedOrSupp) : Json :=
  Json.obj (medEntries m)

/-- The object entries of a serialized note. -/
def noteEntries (n : Note) : List (String × Json) :=
  [("id", Json.str n.id), ("date", Json.str n.date),
    ("text", Json.str n.text)]

/-- `JSON.stringify` of a note. -/
def noteToJson (n : Note) : Json :=
  Json.obj (noteEntries n)

/-- The object entries of a serialized ledger: the six collections, keys in
declaration order. -/
def ledgerEntries (L : Ledger) : List (String × Json) :=
    [("bloods", Json.arr (L.bloods.map bloodToJson)),
     ("imaging", Json.arr (L.imaging.map imagingToJson)),
     ("vitals", Json.arr (L.vitals.map vitalsToJson)),
     ("fitness", Json.arr (L.fitness.map fitnessToJson)),
     ("meds", Json.arr (L.meds.map medToJson)),
     ("notes", Json.arr (L.notes.map noteToJson))]

/-- `JSON.stringify(db)`: the serialized ledger. -/
def ledgerToJson (L : Ledger) : Json :=
  Json.obj (ledgerEntries L)

/-! ## Deserialization: reading a parsed JSON value as a `Ledger`

The source casts the value returned by `JSON.parse` to `Ledger` without
validation; the functions below are the typed reading of such a value
(required fields must be present with the right primitive type, optional
fields may be absent). `none` marks a value that is not ledger-shaped. -/

/-- Read a required string field from a lookup result. -/
def readStr : Option Json → Option String
  | some (Json.str s) => some s
  | _ => none

/-- Read an optional numeric field: absent stays absent. -/
def readOptNum : Option Json → Option (Option Rat)
  | none => some none
  | some (Json.num q) => some (some q)
  | _ => none

/-- Read an optional string field: absent stays absent. -/
def readOptStr : Option Json → Option (Option String)
  | none => some none
  | some (Json.str s) => some (some s)
  | _ => none

/-- Read an imaging-study type from its wire string. -/
def readImagingType : Option Json → Option ImagingType
  | some (Json.str s) =>
      if s = "CAC" then some .cac
      else if s = "Full body MRI" then some .fullBodyMRI
      else if s = "DEXA" then some .dexa
      else if s = "Carotid ultrasound" then some .carotidUltrasound
      else if s = "Colonoscopy" then some .colonoscopy
      else if s = "Other" then some .other
      else none
  | _ => none

/-- Read a medication/supplement kind from its wire string. -/
def readMedKind : Option Json → Option MedKind
  | some (Json.str s) =>
      if s = "Medication" then some .medication
      else if s = "Supplement" then some .supplement
      else none
  | _ => none

/-- Read a blood panel from a parsed JSON value: required fields must be
present as strings, optional fields may be absent. -/
def bloodFromJson : Json → Option BloodPanel
  | Json.obj l =>
    match readStr (jlookup "id" l), readStr (jlookup "date" l),
      readOptStr (jlookup "lab" l), readOptNum (jlookup "apoB" l),
      readOptNum (jlookup "ldl" l), readOptNum (jlookup "hdl" l),
      readOptNum (jlookup "tg" l), readOptNum (jlookup "lpa" l),
      readOptNum (jlookup "hscrp" l), readOptNum (jlookup "a1c" l),
      readOptNum (jlookup "fastingGlucose" l),
      readOptNum (jlookup "fastingInsulin" l), readOptNum (jlookup "alt" l),
      readOptNum (jlookup "ast" l), readOptNum (jlookup "creatinine" l),
      readOptNum (jlookup "egfr" l), readOptNum (jlookup "uric" l),
      readOptNum (jlookup "tsh" l), readOptNum (jlookup "ft4" l),
      readOptNum (jlookup "vitaminD" l), readOptNum (jlookup "ferritin" l),
      readOptNum (jlookup "b12" l), readOptNum (jlookup "folate" l),
      readOptStr (jlookup "notes" l) with
    | some id, some date, some lab, some apoB, some ldl, some hdl, some tg,
      some lpa, some hscrp, some a1c, some fastingGlucose,
      some fastingInsulin, some alt, some ast, some creatinine, some egfr,
      some uric, some tsh, some ft4, some vitaminD, some ferritin, some b12,
      some folate, some notes =>
        some { id, date, lab, apoB, ldl, hdl, tg, lpa, hscrp, a1c,
               fastingGlucose, fastingInsulin, alt, ast, creatinine, egfr,
               uric, tsh, ft4, vitaminD, ferritin, b12, folate, notes }
    | _, _, _, _, _, _, _, _, _, _, _, _, _, _, _, _, _, _, _, _, _, _, _,
      _ => none
  | _ => none

/-- Read an imaging study from a parsed JSON value. -/
def imagingFromJson : Json → Option ImagingStudy
  | Json.obj l =>
    match readStr (jlookup "id" l), readStr (jlookup "date" l),
      readImagingType (jlookup "type" l),
      readOptStr (jlookup "resultSummary" l),
      readOptNum (jlookup "numericResult" l),
      readOptStr (jlookup "site" l) with
    | some id, some date, some type, some resultSummary, some numericResult,
      some site =>
        some { id, date, type, resultSummary, numericResult, site }
    | _, _, _, _, _, _ => none
  | _ => none

/-- Read a vitals record from a parsed JSON value. -/
def vitalsFromJson : Json → Option Vitals
  | Json.obj l =>
    match readStr (jlookup "id" l), readStr (jlookup "date" l),
      readOptNum (jlookup "weightKg" l), readOptNum (jlookup "waistCm" l),
      readOptNum (jlookup "heightCm" l), readOptNum (jlookup "systolic" l),
      readOptNum (jlookup "diastolic" l),
      readOptNum (jlookup "restingHR" l), readOptNum (jlookup "hrv" l) with
    | some id, some date, some weightKg, some waistCm, some heightCm,
      some systolic, some diastolic, some restingHR, some hrv =>
        some { id, date, weightKg, waistCm, heightCm, systolic, diastolic,
               restingHR, hrv }
    | _, _, _, _, _, _, _, _, _ => none
  | _ => none

/-- Read a fitness test from a parsed JSON value. -/
def fitnessFromJson : Json → Option FitnessTest
  | Json.obj l =>
    match readStr (jlookup "id" l), readStr (jlookup "date" l),
      readOptNum (jlookup "vo2max" l), readOptNum (jlookup "gripLeft" l),
      readOptNum (jlookup "gripRight" l),
      readOptNum (jlookup "sitToStand1min" l),
      readOptNum (jlookup "zone2MinsPerWeek" l),
      readOptNum (jlookup "vigorousMinsPerWeek" l) with
    | some id, some date, some vo2max, some gripLeft, some gripRight,
      some sitToStand1min, some zone2MinsPerWeek, some vigorousMinsPerWeek =>
        some { id, date, vo2max, gripLeft, gripRight, sitToStand1min,
               zone2MinsPerWeek, vigorousMinsPerWeek }
    | _, _, _, _, _, _, _, _ => none
  | _ => none

/-- Read a medication/supplement from a parsed JSON value. -/
def medFromJson : Json → Option MedOrSupp
  | Json.obj l =>
    match readStr (jlookup "id" l), readStr (jlookup "date" l),
      readMedKind (jlookup "kind" l), readStr (jlookup "name" l),
      readOptStr (jlookup "dose" l), readOptStr (jlookup "notes" l) with
    | some id, some date, some kind, some name, some dose, some notes =>
        some { id, date, kind, name, dose, notes }
    | _, _, _, _, _, _ => none
  | _ => none

/-- Read a note from a parsed JSON value. -/
def noteFromJson : Json → Option Note
  | Json.obj l =>
    match readStr (jlookup "id" l), readStr (jlookup "date" l),
      readStr (jlookup "text" l) with
    | some id, some date, some text => some { id, date, text }
    | _, _, _ => none
  | _ => none

/-- Read every element of an array, failing if any element fails. -/
def mapRead (f : Json → Option α) : List Json → Option (List α)
  | [] => some []
  | x :: xs =>
      match f x, mapRead f xs with
      | some a, some as => some (a :: as)
      | _, _ => none

/-- Read a collection: the looked-up value must be an array and every
element must read successfully. -/
def readArr (o : Option Json) (f : Json → Option α) : Option (List α) :=
  match o with
  | some (Json.arr xs) => mapRead f xs
  | _ => none

/-- Read a whole ledger from a parsed JSON value. -/
def jsonToLedger : Json → Option Ledger
  | Json.obj l =>
    match readArr (jlookup "bloods" l) bloodFromJson,
      readArr (jlookup "imaging" l) imagingFromJson,
      readArr (jlookup "vitals" l) vitalsFromJson,
      readArr (jlookup "fitness" l) fitnessFromJson,
      readArr (jlookup "meds" l) medFromJson,
      readArr (jlookup "notes" l) noteFromJson with
    | some bloods, some imaging, some vitals, some fitness, some meds,
      some notes =>
        some { bloods, imaging, vitals, fitness, meds, notes }
    | _, _, _, _, _, _ => none
  | _ => none

/-! ## `JSON.parse`: an executable JSON text parser

A fuel-indexed recursive-descent parser over the character list of the
input. `none` models the `SyntaxError` thrown by `JSON.parse` on invalid
input. Numbers are read exactly into `Rat` (abstracting from IEEE-754
rounding); `\u` escapes denoting lone surrogate code units are not
representable in Lean strings and are rejected, an abstraction that does
not affect any ASCII input. -/

/-- JSON insignificant whitespace: space, tab, line feed, carriage return. -/
def jsonWs (c : Char) : Bool :=
  c = ' ' || c = '\t' || c = '\n' || c = '\r'

/-- Skip insignificant whitespace. -/
def skipWs (cs : List Char) : List Char :=
  cs.dropWhile jsonWs

/-- Numeric value of a decimal digit string. -/
def digitsToNat (ds : List Char) : Nat :=
  ds.foldl (fun n c => 10 * n + (c.toNat - 48)) 0

/-- Numeric value of a hexadecimal digit, if any. -/
def hexVal (c : Char) : Option Nat :=
  if c.isDigit then some (c.toNat - 48)
  else if 'a' ≤ c && c ≤ 'f' then some (c.toNat - 87)
  else if 'A' ≤ c && c ≤ 'F' then some (c.toNat - 55)
  else none

/-- Parse the body of a JSON string after the opening quote, up to and
including the closing quote: returns the string characters and the rest of
the input. Escapes and the control-character restriction follow the JSON
grammar. -/
def parseStringBody : List Char → Option (List Char × List Char)
  | [] => none
  | '"' :: rest => some ([], rest)
  | '\\' :: 'u' :: h1 :: h2 :: h3 :: h4 :: rest =>
      match hexVal h1, hexVal h2, hexVal h3, hexVal h4 with
      | some a, some b, some c, some d =>
          let v := ((a * 16 + b) * 16 + c) * 16 + d
          if v < 0xd800 ∨ 0xdfff < v then
            match parseStringBody rest with
            | some (s, r) => some (Char.ofNat v :: s, r)
            | none => none
          else none
      | _, _, _, _ => none
  | '\\' :: e :: rest =>
      match (if e = '"' then some '"'
             else if e = '\\' then some '\\'
             else if e = '/' then some '/'
             else if e = 'b' then some '\x08'
             else if e = 'f' then some '\x0c'
             else if e = 'n' then some '\n'
             else if e = 'r' then some '\r'
             else if e = 't' then some '\t'
             else none) with
      | some c =>
          match parseStringBody rest with
          | some (s, r) => some (c :: s, r)
          | none => none
      | none => none
  | c :: rest =>
      if c.toNat < 32 then none
      else
        match parseStringBody rest with
        | some (s, r) => some (c :: s, r)
        | none => none

/-- Parse the integer digits of a JSON number (no leading zeros:
either a single zero, or a nonzero digit followed by digits). -/
def parseIntPart : List Char → Option (Nat × List Char)
  | '0' :: rest => some (0, rest)
  | c :: rest =>
      if c.isDigit then
        some (digitsToNat (c :: rest.takeWhile Char.isDigit),
          rest.dropWhile Char.isDigit)
      else none
  | [] => none

/-- Parse the optional fraction part; returns its digits (empty if no
fraction is present). -/
def parseFracPart : List Char → Option (List Char × List Char)
  | '.' :: rest =>
      let ds := rest.takeWhile Char.isDigit
      if ds.isEmpty then none
      else some (ds, rest.dropWhile Char.isDigit)
  | cs => some ([], cs)

/-- Parse the optional exponent part; returns its signed value
(zero if no exponent is present). -/
def parseExpPart : List Char → Option (Int × List Char)
  | c :: rest =>
      if c = 'e' || c = 'E' then
        match rest with
        | s :: rest2 =>
            if s = '+' then
              let ds := rest2.takeWhile Char.isDigit
              if ds.isEmpty then none
              else some ((digitsToNat ds : Int), rest2.dropWhile Char.isDigit)
            else if s = '-' then
              let ds := rest2.takeWhile Char.isDigit
              if ds.isEmpty then none
              else some (-(digitsToNat ds : Int), rest2.dropWhile Char.isDigit)
            else
              let ds := rest.takeWhile Char.isDigit
              if ds.isEmpty then none
              else some ((digitsToNat ds : Int), rest.dropWhile Char.isDigit)
        | [] => none
      else some (0, c :: rest)
  | [] => some (0, [])

/-- Parse a JSON number (grammar `-?int frac? exp?`) into an exact
rational. -/
def parseNumber (cs : List Char) : Option (Rat × List Char) :=
  let (neg, cs1) :=
    match cs with
    | '-' :: rest => (true, rest)
    | _ => (false, cs)
  match parseIntPart cs1 with
  | none => none
  | some (i, cs2) =>
    match parseFracPart cs2 with
    | none => none
    | some (fds, cs3) =>
      match parseExpPart cs3 with
      | none => none
      | some (e, cs4) =>
        let mag : Rat :=
          (i : Rat) + (digitsToNat fds : Rat) / ((10 : Rat) ^ fds.length)
        let mag : Rat :=
          if 0 ≤ e then mag * (10 : Rat) ^ e.toNat
          else mag / (10 : Rat) ^ (-e).toNat
        some (if neg then -mag else mag, cs4)

/-- Insert a parsed object entry the way JavaScript property assignment
does: a duplicate textual key keeps its first position and takes the last
value (the entries after the current one are in `es`). -/
def insertEntry (k : String) (v : Json) (es : List (String × Json)) :
    List (String × Json) :=
  match es.find? (fun p => p.1 = k) with
  | some p => (k, p.2) :: es.eraseP (fun q => q.1 = k)
  | none => (k, v) :: es

/-- Parse the items of a nonempty JSON array, given a parser `pv` for
element values; consumes the closing bracket. -/
def parseArrItems (pv : List Char → Option (Json × List Char)) :
    Nat → List Char → Option (List Json × List Char)
  | 0 => fun _ => none
  | fuel + 1 => fun cs =>
      match pv cs with
      | none => none
      | some (j, rest) =>
        match skipWs rest with
        | ',' :: r2 =>
            match parseArrItems pv fuel (skipWs r2) with
            | some (js, r3) => some (j :: js, r3)
            | none => none
        | ']' :: r2 => some ([j], r2)
        | _ => none

/-- Parse the members of a nonempty JSON object, given a parser `pv` for
member values; consumes the closing brace. -/
def parseObjItems (pv : List Char → Option (Json × List Char)) :
    Nat → List Char → Option (List (String × Json) × List Char)
  | 0 => fun _ => none
  | fuel + 1 => fun cs =>
      match cs with
      | '"' :: r1 =>
        match parseStringBody r1 with
        | none => none
        | some (kcs, r2) =>
          match skipWs r2 with
          | ':' :: r3 =>
            match pv (skipWs r3) with
            | none => none
            | some (j, r4) =>
              match skipWs r4 with
              | ',' :: r5 =>
                  match parseObjItems pv fuel (skipWs r5) with
                  | some (es, r6) =>
                      some (insertEntry (String.mk kcs) j es, r6)
                  | none => none
              | '\x7d' :: r5 => some ([(String.mk kcs, j)], r5)
              | _ => none
          | _ => none
      | _ => none

/-- Parse one JSON value (fuel-indexed; the top level supplies more fuel
than the input length, which one value can never exhaust). -/
def parseValueAux : Nat → List Char → Option (Json × List Char)
  | 0 => fun _ => none
  | fuel + 1 => fun cs =>
      match skipWs cs with
      | 'n' :: 'u' :: 'l' :: 'l' :: rest => some (Json.null, rest)
      | 't' :: 'r' :: 'u' :: 'e' :: rest => some (Json.bool true, rest)
      | 'f' :: 'a' :: 'l' :: 's' :: 'e' :: rest => some (Json.bool false, rest)
      | '"' :: rest =>
          match parseStringBody rest with
          | some (s, r) => some (Json.str (String.mk s), r)
          | none => none
      | '[' :: rest =>
          match skipWs rest with
          | ']' :: r2 => some (Json.arr [], r2)
          | cs2 =>
            match parseArrItems (parseValueAux fuel) fuel cs2 with
            | some (js, r2) => some (Json.arr js, r2)
            | none => none
      | '\x7b' :: rest =>
          match skipWs rest with
          | '\x7d' :: r2 => some (Json.obj [], r2)
          | cs2 =>
            match parseObjItems (parseValueAux fuel) fuel cs2 with
            | some (es, r2) => some (Json.obj es, r2)
            | none => none
      | c :: rest =>
          if c = '-' || c.isDigit then
            match parseNumber (c :: rest) with
            | some (q, r) => some (Json.num q, r)
            | none => none
          else none
      | [] => none

/-- `JSON.parse`: parse a complete JSON document; `none` models the thrown
`SyntaxError`. -/
def parseJson (s : String) : Option Json :=
  match parseValueAux (s.length + 1) s.toList with
  | some (j, rest) => if (skipWs rest).isEmpty then some j else none
  | none => none

/-! ## Ledger mutations (pure transformations behind `setDb`)

Each tab builds the new ledger with an object spread: `add` appends the
form record to its collection, `del` filters the collection by identifier
(`App.tsx` lines 327-331, 475-479, 551-555, 636-640, 729-734, 806-811). -/

/-- The six collection names of a ledger. -/
inductive CollName where
  | bloods
  | imaging
  | vitals
  | fitness
  | meds
  | notes
  deriving DecidableEq, Repr

/-- A record destined for its collection (the add-form payload). -/
inductive Rec where
  | blood (b : BloodPanel)
  | imagingStudy (x : ImagingStudy)
  | vitalsRec (v : Vitals)
  | fitnessTest (f : FitnessTest)
  | medOrSupp (m : MedOrSupp)
  | note (n : Note)
  deriving DecidableEq, Repr

/-- The collection a record belongs to. -/
def Rec.coll : Rec → CollName
  | .blood _ => .bloods
  | .imagingStudy _ => .imaging
  | .vitalsRec _ => .vitals
  | .fitnessTest _ => .fitness
  | .medOrSupp _ => .meds
  | .note _ => .notes

/-- `add`: append the record to its collection, spread-copy the rest
(for example `setDb((p) => (\x7b ...p, bloods: [...p.bloods, form] \x7d))`,
`App.tsx` line 328). -/
def addRecord (L : Ledger) (r : Rec) : Ledger :=
  match r with
  | .blood b => { L with bloods := L.bloods ++ [b] }
  | .imagingStudy x => { L with imaging := L.imaging ++ [x] }
  | .vitalsRec v => { L with vitals := L.vitals ++ [v] }
  | .fitnessTest f => { L with fitness := L.fitness ++ [f] }
  | .medOrSupp m => { L with meds := L.meds ++ [m] }
  | .note n => { L with notes := L.notes ++ [n] }

/-- `del`: keep the records whose identifier differs
(for example `p.bloods.filter((b) => b.id !== id)`, `App.tsx` line 331). -/
def deleteRecord (L : Ledger) (c : CollName) (i : String) : Ledger :=
  match c with
  | .bloods => { L with bloods := L.bloods.filter (fun b => b.id != i) }
  | .imaging => { L with imaging := L.imaging.filter (fun b => b.id != i) }
  | .vitals => { L with vitals := L.vitals.filter (fun b => b.id != i) }
  | .fitness => { L with fitness := L.fitness.filter (fun b => b.id != i) }
  | .meds => { L with meds := L.meds.filter (fun b => b.id != i) }
  | .notes => { L with notes := L.notes.filter (fun b => b.id != i) }

/-- The identifiers present in a named collection. -/
def idsIn (L : Ledger) (c : CollName) : List String :=
  match c with
  | .bloods => L.bloods.map (fun b => b.id)
  | .imaging => L.imaging.map (fun b => b.id)
  | .vitals => L.vitals.map (fun b => b.id)
  | .fitness => L.fitness.map (fun b => b.id)
  | .meds => L.meds.map (fun b => b.id)
  | .notes => L.notes.map (fun b => b.id)

/-! ## Derived views (`App.tsx` lines 123-137)

`[...db.bloods].sort((a, b) => a.date.localeCompare(b.date)).at(-1)`:
a stable ascending sort by date followed by taking the last element.
`Array.prototype.sort` is required to be stable, and `localeCompare`
on ISO `YYYY-MM-DD` dates coincides with code-point lexicographic
comparison; the sort is modelled as a stable insertion sort. -/

/-- Code-point lexicographic comparison of character lists. -/
def lexLe : List Char → List Char → Bool
  | [], _ => true
  | _ :: _, [] => false
  | a :: as, b :: bs =>
      if a.toNat < b.toNat then true
      else if b.toNat < a.toNat then false
      else lexLe as bs

/-- `a.localeCompare(b) <= 0` on ISO dates: lexicographic string order. -/
def dateLe (a b : String) : Bool :=
  lexLe a.toList b.toList

/-- One step of the stable ascending insertion sort: a newly arrived
element goes after every element whose date is less than or equal to its
own. -/
def insertByDate (date : α → String) (x : α) : List α → List α
  | [] => [x]
  | y :: ys =>
      if dateLe (date y) (date x) then y :: insertByDate date x ys
      else x :: y :: ys

/-- Stable ascending sort of a collection by its date key. -/
def sortByDate (date : α → String) (l : List α) : List α :=
  l.foldl (fun acc x => insertByDate date x acc) []

/-- The latest-record view: sort ascending by date, take the last element
(`.at(-1)`); `none` on an empty collection. -/
def latestOf (date : α → String) (l : List α) : Option α :=
  (sortByDate date l).getLast?

/-- `latestBlood` (`App.tsx` lines 123-126). -/
def latestBlood (db : Ledger) : Option BloodPanel :=
  latestOf (fun b => b.date) db.bloods

/-- `latestVitals` (`App.tsx` lines 127-130). -/
def latestVitals (db : Ledger) : Option Vitals :=
  latestOf (fun v => v.date) db.vitals

/-- Following the spec's words, for comparison with `latestOf`: the record
with the maximum date, and among records sharing that maximum date the one
inserted last. -/
def latestPerSpec (date : α → String) (l : List α) : Option α :=
  l.foldl
    (fun acc x =>
      match acc with
      | none => some x
      | some a => if dateLe (date a) (date x) then some x else some a)
    none

/-! ## The minimal variant's blood panels and dashboard view
(`part_000` lines 33-42 and 165-181) -/

namespace P0

/-- `BloodPanel` of the minimal variant (`part_000` lines 33-42). -/
structure BloodPanel where
  id : String
  date : String
  apoB : Option Rat := none
  ldl : Option Rat := none
  hdl : Option Rat := none
  tg : Option Rat := none
  a1c : Option Rat := none
  notes : Option String := none
  deriving DecidableEq, Repr

/-- The dashboard's recent-blood rollup (`part_000` line 167):
`db.bloods.at(-1)` — the last element of the collection, with no sorting. -/
def recentBlood (bloods : List BloodPanel) : Option BloodPanel :=
  bloods.getLast?

end P0

/-! ## Import (`part_000` lines 204-212; `App.tsx` upload, lines 861-875)

Both variants parse the input text and on success replace the in-memory
ledger with the parsed value unchecked (`setDb(obj)`); on a parse failure
they keep the state and raise an alert. The result is the new in-memory
value together with the invalid-input flag (the alert). -/

/-- `importJson`: returns the in-memory value after the operation and
whether the invalid-input alert fired. -/
def importJson (raw : String) (db : Json) : Json × Bool :=
  match parseJson raw with
  | some parsed => (parsed, false)
  | none => (db, true)

/-! ## Loading a profile's persisted slot

`App.tsx` lines 101-108: read the slot text; absent (or empty, which is
falsy) yields `EMPTY`, a parse failure is caught and yields `EMPTY`,
otherwise the parsed value is returned unchecked.  The in-memory database
is untyped in the source, so the load result is the JSON tree. -/

/-- `loadFor` of the feature-complete variant: total, every failure is
recovered by the canonical empty ledger. -/
def loadFor (storage : String → Option String) (p : Profile) : Json :=
  match storage (storageKey p) with
  | none => ledgerToJson EMPTY
  | some raw =>
      if raw = "" then ledgerToJson EMPTY
      else
        match parseJson raw with
        | some j => j
        | none => ledgerToJson EMPTY

/-- The load effect of the minimal variant (`part_000` lines 155-158):
`setDb(raw ? JSON.parse(raw) : EMPTY)` with no try/catch, so malformed
stored text makes `JSON.parse` throw; the thrown exception is modelled by
`none`. -/
def loadEffectP0 (storage : String → Option String) (p : Profile) :
    Option Json :=
  match storage (storageKey p) with
  | none => some (ledgerToJson EMPTY)
  | some raw =>
      if raw = "" then some (ledgerToJson EMPTY)
      else parseJson raw

/-! ## The application state machine

Both variants keep the active profile, the in-memory database, and mirror
the database to the per-profile slot with two effects declared in this
order: a load effect on profile change (`App.tsx` 114-116, `part_000`
155-158), then a save effect on database or profile change (`App.tsx`
119-121, `part_000` 161-163).  The persisted slots are modelled at the
JSON-tree level: the text written by `JSON.stringify` and read back by
`JSON.parse` denotes exactly the stored tree (the parser and the
round-trip theorems below justify the abstraction), keyed by the real
`storageKey` strings.

Every mutation — add, delete, import, reset — reaches storage exclusively
through `setDb` followed by the save effect, which writes only the active
profile's slot; `stepSet` is that common shape.  On `setProfile(q)` React
re-renders: the load effect reads slot `q` first, then the save effect of
the same render runs with the old database and the new profile, and the
render caused by the load effect's `setDb` saves again with the loaded
database.  `setProfile` with the current profile is a no-op (React bails
out on identical state). -/

/-- The application state: active profile, in-memory database (untyped, as
in the source), and the parsed contents of the per-profile slots. -/
structure AppState where
  profile : Profile
  db : Json
  store : String → Option Json

/-- Write one storage slot (`localStorage.setItem`). -/
def setStore (st : String → Option Json) (k : String) (v : Json) :
    String → Option Json :=
  fun k2 => if k2 = k then some v else st k2

/-- The save effect: persist the in-memory database to the active
profile's slot. -/
def saveEffect (s : AppState) : AppState :=
  { s with store := setStore s.store (storageKey s.profile) s.db }

/-- Any mutation (add, delete, import, reset): `setDb` with the new value,
then the save effect. -/
def stepSet (s : AppState) (j : Json) : AppState :=
  saveEffect { s with db := j }

/-- The load effect's read of a slot: absent yields the empty ledger. -/
def loadSlot (st : String → Option Json) (p : Profile) : Json :=
  match st (storageKey p) with
  | none => ledgerToJson EMPTY
  | some j => j

/-- `selectProfile(q)`: no-op when `q` is already active; otherwise the
load effect reads slot `q`, the switch render's save effect writes the old
database to slot `q`, and the follow-up render saves the loaded database. -/
def stepSelect (s : AppState) (q : Profile) : AppState :=
  if q = s.profile then s
  else
    let newDb := loadSlot s.store q
    let s2 := saveEffect { profile := q, db := s.db, store := s.store }
    saveEffect { s2 with db := newDb }

/-- The reset operation (`Clear all` after confirmation): `setDb(EMPTY)`. -/
def resetAll (s : AppState) : AppState :=
  stepSet s (ledgerToJson EMPTY)

/-! ## Identifier generation

`uid = () => Math.random().toString(36).slice(2)` (`App.tsx` line 88,
`part_000` line 106): a fresh string is drawn from `Math.random` for every
record created.  The generator is modelled as an oracle `supply : Nat →
String` giving the successive draws; `Math.random` guarantees nothing
about distinctness of draws. -/

/-- Overwrite a record's identifier with a freshly generated one. -/
def Rec.withId : Rec → String → Rec
  | .blood b, i => .blood { b with id := i }
  | .imagingStudy x, i => .imagingStudy { x with id := i }
  | .vitalsRec v, i => .vitalsRec { v with id := i }
  | .fitnessTest f, i => .fitnessTest { f with id := i }
  | .medOrSupp m, i => .medOrSupp { m with id := i }
  | .note n, i => .note { n with id := i }

/-- State of the record-creation process: the ledger and the number of
identifiers drawn so far. -/
structure GenState where
  db : Ledger
  ctr : Nat
  deriving DecidableEq, Repr

/-- Create a record: it is saved with the next generated identifier. -/
def createStep (supply : Nat → String) (s : GenState) (r : Rec) : GenState :=
  { db := addRecord s.db (r.withId (supply s.ctr)), ctr := s.ctr + 1 }

/-- States reachable from the empty ledger through record creation. -/
inductive ReachableGen (supply : Nat → String) : GenState → Prop
  | init : ReachableGen supply ⟨EMPTY, 0⟩
  | step (s : GenState) (r : Rec) :
      ReachableGen supply s → ReachableGen supply (createStep supply s r)

/-- Every record's identifier is unique within its own collection. -/
def NodupIds (L : Ledger) : Prop :=
  (L.bloods.map (fun b => b.id)).Nodup ∧
  (L.imaging.map (fun b => b.id)).Nodup ∧
  (L.vitals.map (fun b => b.id)).Nodup ∧
  (L.fitness.map (fun b => b.id)).Nodup ∧
  (L.meds.map (fun b => b.id)).Nodup ∧
  (L.notes.map (fun b => b.id)).Nodup

/-! ## Equality of JSON documents up to object key order

Two JSON values are related when they differ only in the order of object
entries: arrays keep their order, object entry lists may be permuted, and
the relation descends into the values. -/

mutual

/-- `JsonPerm a b`: `b` is `a` with object keys reordered (recursively). -/
inductive JsonPerm : Json → Json → Prop
  | null : JsonPerm Json.null Json.null
  | bool (b : Bool) : JsonPerm (Json.bool b) (Json.bool b)
  | num (q : Rat) : JsonPerm (Json.num q) (Json.num q)
  | str (s : String) : JsonPerm (Json.str s) (Json.str s)
  | arr {l l2 : List Json} (h : JsonPermList l l2) :
      JsonPerm (Json.arr l) (Json.arr l2)
  | obj {l m l2 : List (String × Json)} (hF : JsonPermEntries l m)
      (hP : m.Perm l2) : JsonPerm (Json.obj l) (Json.obj l2)

/-- Pointwise `JsonPerm` on element lists (array order is preserved). -/
inductive JsonPermList : List Json → List Json → Prop
  | nil : JsonPermList [] []
  | cons {a b : Json} {l l2 : List Json} (h : JsonPerm a b)
      (t : JsonPermList l l2) : JsonPermList (a :: l) (b :: l2)

/-- Pointwise `JsonPerm` on object entry lists: equal keys in equal
positions, related values. -/
inductive JsonPermEntries :
    List (String × Json) → List (String × Json) → Prop
  | nil : JsonPermEntries [] []
  | cons (k : String) {v w : Json} {l m : List (String × Json)}
      (h : JsonPerm v w) (t : JsonPermEntries l m) :
      JsonPermEntries ((k, v) :: l) ((k, w) :: m)

end

/-- A primitive (non-container) JSON value. -/
def IsLeaf : Json → Prop
  | Json.null => True
  | Json.bool _ => True
  | Json.num _ => True
  | Json.str _ => True
  | Json.arr _ => False
  | Json.obj _ => False

/-! ## Specification predicates and concrete values used in statements -/

/-- What deletion must do to the named collection, in the spec's words:
the result is a subsequence (relative order preserved), no record with the
deleted identifier remains, and records with any other identifier keep
their multiplicity. -/
def removesMatching [DecidableEq α] (getId : α → String) (i : String)
    (l l2 : List α) : Prop :=
  l2.Sublist l ∧ (∀ r ∈ l2, getId r ≠ i) ∧
    (∀ r, getId r ≠ i → l2.count r = l.count r)

/-- A one-panel ledger used to evaluate the delete operations. -/
def wLedger1 : Ledger :=
  { EMPTY with bloods := [{ id := "a", date := "2024-01-10", apoB := some 85 }] }

/-- A two-record ledger used to evaluate the serialization round trip. -/
def w2Ledger : Ledger :=
  { EMPTY with
      bloods := [{ id := "b1", date := "2024-01-10", apoB := some 85 }],
      notes := [{ id := "n1", date := "2024-01-11", text := "hello" }] }

/-- The serialization of `w2Ledger` with two object key lists reordered:
the blood panel's `date` key moved before `id`, and the top-level
`imaging` collection moved before `bloods`. -/
def w2Json : Json :=
  Json.obj
    [("imaging", Json.arr []),
     ("bloods", Json.arr [Json.obj
        [("date", Json.str "2024-01-10"), ("id", Json.str "b1"),
         ("apoB", Json.num 85)]]),
     ("vitals", Json.arr []), ("fitness", Json.arr []),
     ("meds", Json.arr []),
     ("notes", Json.arr [Json.obj
        [("id", Json.str "n1"), ("date", Json.str "2024-01-11"),
         ("text", Json.str "hello")]])]

/-- A storage state holding a valid serialized empty ledger in Paul's slot
and nothing in Claire's. -/
def w4storage : String → Option String :=
  fun k =>
    if k = storageKey Profile.paul then
      some "\x7b\"bloods\":[],\"imaging\":[],\"vitals\":[],\"fitness\":[],\"meds\":[],\"notes\":[]\x7d"
    else none

/-- A storage state whose slot for Paul holds text that is not valid JSON. -/
def w4badStorage : String → Option String :=
  fun k => if k = storageKey Profile.paul then some "oops" else none

/-- A concrete application state: Paul active, empty ledger, Paul's slot
saved. -/
def w1state : AppState :=
  { profile := Profile.paul, db := ledgerToJson EMPTY,
    store := fun k =>
      if k = storageKey Profile.paul then some (ledgerToJson EMPTY)
      else none }

/-- An identifier supply that repeats the same string — a possible
behaviour of `Math.random().toString(36).slice(2)`, which guarantees no
distinctness. -/
def constSupply : Nat → String :=
  fun _ => "x"

/-- An injective identifier supply. -/
def natSupply : Nat → String :=
  fun n => String.mk (List.replicate n 'a')

/-- A note payload for exercising record creation. -/
def wNote : Rec :=
  Rec.note { id := "tmp", date := "2024-01-01", text := "t" }

/-- The creation state after saving the same payload twice under
`constSupply`: both records draw the identifier "x". -/
def wDupState : GenState :=
  createStep constSupply (createStep constSupply ⟨EMPTY, 0⟩ wNote) wNote

/-- The creation state after saving one record under `natSupply`. -/
def wGenState : GenState :=
  createStep natSupply ⟨EMPTY, 0⟩ wNote

/-- A blood panel of the minimal variant dated January. -/
def p0jan : P0.BloodPanel :=
  { id := "j", date := "2024-01-10", apoB := some 85 }

/-- A blood panel of the minimal variant dated March. -/
def p0mar : P0.BloodPanel :=
  { id := "m", date := "2024-03-01", apoB := some 70 }

/-- A collection whose last-inserted record does not carry the maximum
date (producible, for example, by importing a document listing the newer
panel first). -/
def p0list : List P0.BloodPanel :=
  [p0mar, p0jan]

/-! ## Theorems -/

set_option maxRecDepth 100000

/-! ### Helper lemmas about filtering -/

theorem filter_self_of_all {p : α → Bool} {l : List α}
    (h : ∀ a ∈ l, p a = true) : l.filter p = l :=
  List.filter_eq_self.mpr h

theorem filter_idem (p : α → Bool) (l : List α) :
    (l.filter p).filter p = l.filter p :=
  List.filter_eq_self.mpr (fun _ ha => List.of_mem_filter ha)

theorem removesMatching_filter [DecidableEq α] (getId : α → String)
    (i : String) (l : List α) :
    removesMatching getId i l (l.filter (fun r => getId r != i)) := by
  refine ⟨List.filter_sublist l, ?_, ?_⟩
  · intro r hr
    exact bne_iff_ne.mp (@List.of_mem_filter _ (fun r => getId r != i) r l hr)
  · intro r hr
    exact List.count_filter (bne_iff_ne.mpr hr)

/-- Claim C7: deleting an identifier with no matching record in the named
collection leaves the ledger unchanged, and deleting the same identifier
twice yields the same ledger as deleting it once. -/
theorem deleteRecord_missing_id_noop (L : Ledger) (c : CollName)
    (i : String) :
    (i ∉ idsIn L c → deleteRecord L c i = L) ∧
      deleteRecord (deleteRecord L c i) c i = deleteRecord L c i := by
  constructor
  · intro h
    cases c <;>
      · simp only [deleteRecord]
        rw [filter_self_of_all]
        intro b hb
        refine bne_iff_ne.mpr (fun e => h ?_)
        simp only [idsIn] at *
        exact e ▸ List.mem_map_of_mem _ hb
  · cases c <;> simp [deleteRecord, filter_idem]

/-- Witness for C7 at a concrete ledger: identifier "b" matches nothing. -/
theorem deleteRecord_missing_id_noop_witness :
    (deleteRecord wLedger1 CollName.bloods "b" = wLedger1) ∧
      deleteRecord (deleteRecord wLedger1 CollName.bloods "b")
          CollName.bloods "b" =
        deleteRecord wLedger1 CollName.bloods "b" :=
  ⟨(deleteRecord_missing_id_noop wLedger1 CollName.bloods "b").1 (by decide),
   (deleteRecord_missing_id_noop wLedger1 CollName.bloods "b").2⟩

/-- Claim C8: `add` returns a ledger whose named collection is the old
collection with the record appended at the end, and whose other five
collections are unchanged. -/
theorem addRecord_appends (L : Ledger) (r : Rec) :
    (addRecord L r).bloods =
        L.bloods ++ (match r with | .blood b => [b] | _ => []) ∧
    (addRecord L r).imaging =
        L.imaging ++ (match r with | .imagingStudy x => [x] | _ => []) ∧
    (addRecord L r).vitals =
        L.vitals ++ (match r with | .vitalsRec v => [v] | _ => []) ∧
    (addRecord L r).fitness =
        L.fitness ++ (match r with | .fitnessTest f => [f] | _ => []) ∧
    (addRecord L r).meds =
        L.meds ++ (match r with | .medOrSupp m => [m] | _ => []) ∧
    (addRecord L r).notes =
        L.notes ++ (match r with | .note n => [n] | _ => []) := by
  cases r <;> simp [addRecord]

/-- Claim C10: `del` removes every record of the named collection whose
identifier equals the given one (all duplicates in one call), keeps the
relative order of the remaining records, and preserves the multiplicity of
every record with a different identifier. -/
theorem deleteRecord_removes_all_matching (L : Ledger) (c : CollName)
    (i : String) :
    match c with
    | .bloods =>
        removesMatching (fun b => b.id) i L.bloods (deleteRecord L c i).bloods
    | .imaging =>
        removesMatching (fun b => b.id) i L.imaging
          (deleteRecord L c i).imaging
    | .vitals =>
        removesMatching (fun b => b.id) i L.vitals (deleteRecord L c i).vitals
    | .fitness =>
        removesMatching (fun b => b.id) i L.fitness
          (deleteRecord L c i).fitness
    | .meds =>
        removesMatching (fun b => b.id) i L.meds (deleteRecord L c i).meds
    | .notes =>
        removesMatching (fun b => b.id) i L.notes
          (deleteRecord L c i).notes := by
  cases c <;> exact removesMatching_filter _ i _

/-! ### Import (claims C5 and C6) -/

/-- Claim C5: when the input text is not syntactically valid JSON, import
leaves the in-memory ledger completely unchanged and raises the
invalid-input signal. -/
theorem importJson_invalid_keeps_state (raw : String) (db : Json)
    (h : parseJson raw = none) : importJson raw db = (db, true) := by
  simp [importJson, h]

/-- Witness for C5: importing the text "not json" changes nothing and
signals invalid input. -/
theorem importJson_invalid_keeps_state_witness :
    importJson "not json" (ledgerToJson EMPTY) = (ledgerToJson EMPTY, true) :=
  importJson_invalid_keeps_state "not json" (ledgerToJson EMPTY) rfl

/-- Claim C6: when the input text parses as JSON, import replaces the
entire in-memory ledger with the parsed value unconditionally — there is
no shape hypothesis, so a structurally valid document of the wrong shape
is accepted as-is. -/
theorem importJson_valid_replaces (raw : String) (j db : Json)
    (h : parseJson raw = some j) : importJson raw db = (j, false) := by
  simp [importJson, h]

/-- Witness for C6: importing the text "5" (valid JSON, not ledger-shaped)
replaces the ledger with the number 5; the value is indeed not
ledger-shaped. -/
theorem importJson_valid_replaces_witness :
    importJson "5" (ledgerToJson EMPTY) = (Json.num 5, false) ∧
      jsonToLedger (Json.num 5) = none :=
  ⟨importJson_valid_replaces "5" (Json.num 5) (ledgerToJson EMPTY)
      (by with_unfolding_all rfl),
   rfl⟩

/-! ### Profile isolation (claim C1) -/

theorem storageKey_ne (A B : Profile) (h : A ≠ B) :
    storageKey A ≠ storageKey B := by
  cases A <;> cases B <;> first | exact absurd rfl h | decide

/-- After any mutation, the active profile's slot holds the in-memory
database (the save effect ran). -/
theorem stepSet_saves (s : AppState) (j : Json) :
    (stepSet s j).store (storageKey (stepSet s j).profile) =
      some (stepSet s j).db := by
  simp [stepSet, saveEffect, setStore]

/-- After a profile switch, the active profile's slot holds the in-memory
database. -/
theorem stepSelect_saves (s : AppState) (q : Profile)
    (h : s.store (storageKey s.profile) = some s.db) :
    (stepSelect s q).store (storageKey (stepSelect s q).profile) =
      some (stepSelect s q).db := by
  by_cases hq : q = s.profile
  · simpa [stepSelect, hq] using h
  · simp [stepSelect, hq, saveEffect, setStore, loadSlot]

/-- Claim C1: while profile `A` is active, a mutation (add, delete,
import, reset — each is `setDb` with some new value followed by the save
effect) never alters the persisted slot of a distinct profile `B`; and
switching to `B` and back to `A` restores the in-memory ledger to exactly
`A`'s last-saved state. -/
theorem profile_isolation_and_restore (s : AppState) (A B : Profile)
    (j : Json) (hA : s.profile = A) (hAB : A ≠ B)
    (hsaved : s.store (storageKey A) = some s.db) :
    (stepSet s j).store (storageKey B) = s.store (storageKey B) ∧
      (stepSelect (stepSelect s B) A).db = s.db := by
  have hkey : storageKey A ≠ storageKey B := storageKey_ne A B hAB
  have hkey2 : storageKey B ≠ storageKey A := Ne.symm hkey
  have hBne : B ≠ s.profile := fun e => hAB (by rw [hA] at e; exact e.symm)
  constructor
  · simp [stepSet, saveEffect, setStore, hA, hkey2]
  · simp [stepSelect, hBne, hAB, saveEffect, setStore, loadSlot, hkey,
      hsaved]

/-- Witness for C1 at a concrete state: Paul active with a saved empty
ledger, mutating with `null`, switching to Claire and back. -/
theorem profile_isolation_and_restore_witness :
    (stepSet w1state Json.null).store (storageKey Profile.claire) =
        w1state.store (storageKey Profile.claire) ∧
      (stepSelect (stepSelect w1state Profile.claire) Profile.paul).db =
        w1state.db :=
  profile_isolation_and_restore w1state Profile.paul Profile.claire
    Json.null rfl (by decide) (by with_unfolding_all rfl)

/-! ### The latest-record views (claim C3) -/

theorem lexLe_refl (a : List Char) : lexLe a a = true := by
  induction a with
  | nil => rfl
  | cons c cs ih => simp [lexLe, ih]

theorem lexLe_total (a b : List Char) :
    lexLe a b = true ∨ lexLe b a = true := by
  induction a generalizing b with
  | nil => left; rfl
  | cons c cs ih =>
    cases b with
    | nil => right; rfl
    | cons d ds =>
      simp only [lexLe]
      rcases Nat.lt_trichotomy c.toNat d.toNat with h | h | h
      · left; simp [h]
      · rcases ih ds with h2 | h2 <;>
          [left; right] <;> simp [h, h2, Nat.lt_irrefl]
      · right; simp [h, Nat.lt_asymm h]

theorem lexLe_trans {a b c : List Char} (h1 : lexLe a b = true)
    (h2 : lexLe b c = true) : lexLe a c = true := by
  induction a generalizing b c with
  | nil => rfl
  | cons x xs ih =>
    cases b with
    | nil => simp [lexLe] at h1
    | cons y ys =>
      cases c with
      | nil => simp [lexLe] at h2
      | cons z zs =>
        simp only [lexLe] at h1 h2 ⊢
        rcases Nat.lt_trichotomy x.toNat y.toNat with hxy | hxy | hxy
        · rcases Nat.lt_trichotomy y.toNat z.toNat with hyz | hyz | hyz
          · have h : x.toNat < z.toNat := by omega
            simp [h]
          · have h : x.toNat < z.toNat := by omega
            simp [h]
          · simp [Nat.lt_asymm hyz, hyz] at h2
        · rcases Nat.lt_trichotomy y.toNat z.toNat with hyz | hyz | hyz
          · have h : x.toNat < z.toNat := by omega
            simp [h]
          · have e1 : ¬x.toNat < y.toNat := by omega
            have e2 : ¬y.toNat < x.toNat := by omega
            have e3 : ¬y.toNat < z.toNat := by omega
            have e4 : ¬z.toNat < y.toNat := by omega
            have e5 : ¬x.toNat < z.toNat := by omega
            have e6 : ¬z.toNat < x.toNat := by omega
            simp only [e1, e2, if_false, if_neg] at h1
            simp only [e3, e4, if_false, if_neg] at h2
            simp only [e5, e6, if_false, if_neg]
            exact ih h1 h2
          · simp [Nat.lt_asymm hyz, hyz] at h2
        · simp [Nat.lt_asymm hxy, hxy] at h1

theorem dateLe_refl (a : String) : dateLe a a = true :=
  lexLe_refl a.toList

theorem dateLe_total (a b : String) :
    dateLe a b = true ∨ dateLe b a = true :=
  lexLe_total a.toList b.toList

theorem dateLe_trans {a b c : String} (h1 : dateLe a b = true)
    (h2 : dateLe b c = true) : dateLe a c = true :=
  lexLe_trans h1 h2

theorem insertByDate_ne_nil (date : α → String) (x : α) (l : List α) :
    insertByDate date x l ≠ [] := by
  cases l with
  | nil => simp [insertByDate]
  | cons y ys =>
    simp only [insertByDate]
    split <;> simp

theorem mem_insertByDate (date : α → String) (x a : α) (l : List α) :
    a ∈ insertByDate date x l ↔ a = x ∨ a ∈ l := by
  induction l with
  | nil => simp [insertByDate]
  | cons y ys ih =>
    simp only [insertByDate]
    split
    · simp only [List.mem_cons, ih]
      tauto
    · simp only [List.mem_cons]

theorem getLast?_mem_self {l : List α} {a : α} (h : l.getLast? = some a) :
    a ∈ l := by
  induction l with
  | nil => simp at h
  | cons x t ih =>
    cases t with
    | nil => simp_all
    | cons y ys =>
      rw [List.getLast?_cons_cons] at h
      exact List.mem_cons_of_mem x (ih h)

theorem getLast?_insertByDate (date : α → String) (x : α) (s : List α) :
    (insertByDate date x s).getLast? =
      if s.all (fun y => dateLe (date y) (date x)) then some x
      else s.getLast? := by
  induction s with
  | nil => simp [insertByDate]
  | cons y ys ih =>
    simp only [insertByDate, List.all_cons]
    by_cases hy : dateLe (date y) (date x) = true
    · rw [if_pos hy]
      obtain ⟨z, zs, hz⟩ :=
        List.exists_cons_of_ne_nil (insertByDate_ne_nil date x ys)
      rw [hz, List.getLast?_cons_cons, ← hz, ih]
      by_cases hall : ys.all (fun y => dateLe (date y) (date x)) = true
      · simp [hall, hy]
      · rw [if_neg hall, if_neg (by simp [hall, hy])]
        have hys : ys ≠ [] := by
          intro e; rw [e] at hall; simp [List.all_nil] at hall
        obtain ⟨w, ws, hw⟩ := List.exists_cons_of_ne_nil hys
        rw [hw, List.getLast?_cons_cons]
    · rw [if_neg hy, List.getLast?_cons_cons,
        if_neg (by simp [hy])]

/-- The step function of the spec-side fold. -/
theorem getLast?_sortFold (date : α → String) (xs acc : List α)
    (hacc : ∀ a ∈ acc, ∀ la, acc.getLast? = some la →
      dateLe (date a) (date la) = true) :
    (List.foldl (fun s x => insertByDate date x s) acc xs).getLast? =
      List.foldl
        (fun o x =>
          match o with
          | none => some x
          | some a => if dateLe (date a) (date x) then some x else some a)
        acc.getLast? xs := by
  induction xs generalizing acc with
  | nil => rfl
  | cons x xs ih =>
    simp only [List.foldl_cons]
    have hstep : (insertByDate date x acc).getLast? =
        match acc.getLast? with
        | none => some x
        | some a => if dateLe (date a) (date x) then some x else some a := by
      rw [getLast?_insertByDate]
      by_cases hall : acc.all (fun y => dateLe (date y) (date x)) = true
      · rw [if_pos hall]
        cases hgl : acc.getLast? with
        | none => rfl
        | some la =>
          have : dateLe (date la) (date x) = true :=
            List.all_eq_true.mp hall la (getLast?_mem_self hgl)
          simp [this]
      · rw [if_neg hall]
        have ⟨y, hy, hyx⟩ : ∃ y ∈ acc, ¬dateLe (date y) (date x) = true := by
          simpa [List.all_eq_true] using hall
        cases hgl : acc.getLast? with
        | none =>
          exact absurd (List.getLast?_eq_none_iff.mp hgl ▸ hy) (by simp)
        | some la =>
          have hla : ¬dateLe (date la) (date x) = true := by
            intro h
            exact hyx (dateLe_trans (hacc y hy la hgl) h)
          simp [hla]
    rw [ih (insertByDate date x acc), hstep]
    intro a ha la hla
    rw [getLast?_insertByDate] at hla
    rcases (mem_insertByDate date x a acc).mp ha with rfl | hmem
    · by_cases hall : acc.all (fun y => dateLe (date y) (date a)) = true
      · rw [if_pos hall] at hla
        cases hla
        exact dateLe_refl _
      · rw [if_neg hall] at hla
        have ⟨y, hy, hyx⟩ : ∃ y ∈ acc, ¬dateLe (date y) (date a) = true := by
          simpa [List.all_eq_true] using hall
        have hxy : dateLe (date a) (date y) = true := by
          rcases dateLe_total (date a) (date y) with h | h
          · exact h
          · exact absurd h hyx
        exact dateLe_trans hxy (hacc y hy la hla)
    · by_cases hall : acc.all (fun y => dateLe (date y) (date x)) = true
      · rw [if_pos hall] at hla
        cases hla
        exact List.all_eq_true.mp hall a hmem
      · rw [if_neg hall] at hla
        exact hacc a hmem la hla

theorem foldl_insert_ne_nil (date : α → String) (xs acc : List α)
    (h : acc ≠ []) :
    List.foldl (fun s x => insertByDate date x s) acc xs ≠ [] := by
  induction xs generalizing acc with
  | nil => exact h
  | cons x xs ih =>
    simp only [List.foldl_cons]
    exact ih _ (insertByDate_ne_nil date x acc)

/-- Amended claim C3: for the feature-complete variant's views, the
latest-record view — a stable ascending sort by date followed by taking
the last element — returns exactly the record described by the spec (the
maximum-date record, the last-inserted one among equal maximum dates), and
returns `none` exactly on the empty collection.  (As stated, the claim
also covered the minimal variant's dashboard view, which does not sort;
see the counterexample.) -/
theorem latestOf_eq_latestPerSpec (date : α → String) (l : List α) :
    latestOf date l = latestPerSpec date l ∧
      (latestOf date l = none ↔ l = []) := by
  constructor
  · have h := getLast?_sortFold date l [] (by intro a ha; cases ha)
    simpa [latestOf, sortByDate, latestPerSpec] using h
  · constructor
    · intro h
      cases l with
      | nil => rfl
      | cons x xs =>
        exfalso
        have : sortByDate date (x :: xs) ≠ [] := by
          simp only [sortByDate, List.foldl_cons]
          exact foldl_insert_ne_nil date xs _ (insertByDate_ne_nil date x [])
        exact this (List.getLast?_eq_none_iff.mp h)
    · intro h
      subst h
      rfl

/-- Counterexample to claim C3 as stated: in the minimal variant, the
dashboard's "latest blood panel" view takes the last-inserted record
without sorting, so on a collection whose last insertion is the January
panel it differs from the sorted view, which returns the March panel. -/
theorem recentBlood_not_latest_cex :
    P0.recentBlood p0list = some p0jan ∧
      latestOf (fun b => b.date) p0list = some p0mar ∧
      P0.recentBlood p0list ≠ latestOf (fun b => b.date) p0list :=
  ⟨by decide, by decide, by decide⟩

/-! ### Serialization round trip (claim C2): lookup evaluation -/

theorem jlookup_nil (k : String) : jlookup k [] = none := rfl

theorem jlookup_cons (k k2 : String) (v : Json) (l : List (String × Json)) :
    jlookup k ((k2, v) :: l) = if k2 = k then some v else jlookup k l := by
  by_cases h : k2 = k
  · simp [jlookup, List.find?_cons_of_pos, h]
  · simp [jlookup, List.find?_cons_of_neg, h]

theorem jlookup_append (k : String) (l1 l2 : List (String × Json)) :
    jlookup k (l1 ++ l2) = (jlookup k l1).or (jlookup k l2) := by
  induction l1 with
  | nil => simp [jlookup_nil]
  | cons p t ih =>
    obtain ⟨k2, v⟩ := p
    rw [List.cons_append, jlookup_cons, jlookup_cons]
    by_cases h : k2 = k
    · simp [h]
    · simp [h, ih]

theorem jlookup_optNum (k k2 : String) (v : Option Rat) :
    jlookup k (optNum k2 v) = if k2 = k then v.map Json.num else none := by
  cases v <;> by_cases h : k2 = k <;>
    simp [optNum, jlookup_nil, jlookup_cons, h]

theorem jlookup_optStr (k k2 : String) (v : Option String) :
    jlookup k (optStr k2 v) = if k2 = k then v.map Json.str else none := by
  cases v <;> by_cases h : k2 = k <;>
    simp [optStr, jlookup_nil, jlookup_cons, h]

theorem readOptNum_map_num (v : Option Rat) :
    readOptNum (v.map Json.num) = some v := by
  cases v <;> rfl

theorem readOptStr_map_str (v : Option String) :
    readOptStr (v.map Json.str) = some v := by
  cases v <;> rfl

theorem readImagingType_wire (t : ImagingType) :
    readImagingType (some (Json.str t.wire)) = some t := by
  cases t <;> rfl

theorem readMedKind_wire (t : MedKind) :
    readMedKind (some (Json.str t.wire)) = some t := by
  cases t <;> rfl

/-! ### Per-record round trips -/

theorem bloodFromJson_toJson (b : BloodPanel) :
    bloodFromJson (bloodToJson b) = some b := by
  simp [bloodToJson, bloodEntries, bloodFromJson, jlookup_append,
    jlookup_cons, jlookup_nil, jlookup_optNum, jlookup_optStr,
    readOptNum_map_num, readOptStr_map_str, readStr, Option.or_none,
    Option.none_or]

theorem imagingFromJson_toJson (x : ImagingStudy) :
    imagingFromJson (imagingToJson x) = some x := by
  simp [imagingToJson, imagingEntries, imagingFromJson, jlookup_append,
    jlookup_cons, jlookup_nil, jlookup_optNum, jlookup_optStr,
    readOptNum_map_num, readOptStr_map_str, readStr, readImagingType_wire,
    Option.or_none, Option.none_or]

theorem vitalsFromJson_toJson (v : Vitals) :
    vitalsFromJson (vitalsToJson v) = some v := by
  simp [vitalsToJson, vitalsEntries, vitalsFromJson, jlookup_append,
    jlookup_cons, jlookup_nil, jlookup_optNum, jlookup_optStr,
    readOptNum_map_num, readOptStr_map_str, readStr, Option.or_none,
    Option.none_or]

theorem fitnessFromJson_toJson (f : FitnessTest) :
    fitnessFromJson (fitnessToJson f) = some f := by
  simp [fitnessToJson, fitnessEntries, fitnessFromJson, jlookup_append,
    jlookup_cons, jlookup_nil, jlookup_optNum, jlookup_optStr,
    readOptNum_map_num, readOptStr_map_str, readStr, Option.or_none,
    Option.none_or]

theorem medFromJson_toJson (m : MedOrSupp) :
    medFromJson (medToJson m) = some m := by
  simp [medToJson, medEntries, medFromJson, jlookup_append, jlookup_cons,
    jlookup_nil, jlookup_optNum, jlookup_optStr, readOptNum_map_num,
    readOptStr_map_str, readStr, readMedKind_wire, Option.or_none,
    Option.none_or]

theorem noteFromJson_toJson (n : Note) :
    noteFromJson (noteToJson n) = some n := by
  simp [noteToJson, noteEntries, noteFromJson, jlookup_cons, jlookup_nil,
    readStr]

theorem mapRead_map {f : Json → Option α} {g : α → Json}
    (h : ∀ a, f (g a) = some a) (l : List α) :
    mapRead f (l.map g) = some l := by
  induction l with
  | nil => rfl
  | cons a t ih => simp [mapRead, h, ih]

/-- The plain round trip: reading back the serialization of any ledger
recovers it exactly. -/
theorem jsonToLedger_ledgerToJson (L : Ledger) :
    jsonToLedger (ledgerToJson L) = some L := by
  have h1 := mapRead_map bloodFromJson_toJson L.bloods
  have h2 := mapRead_map imagingFromJson_toJson L.imaging
  have h3 := mapRead_map vitalsFromJson_toJson L.vitals
  have h4 := mapRead_map fitnessFromJson_toJson L.fitness
  have h5 := mapRead_map medFromJson_toJson L.meds
  have h6 := mapRead_map noteFromJson_toJson L.notes
  simp [ledgerToJson, ledgerEntries, jsonToLedger, jlookup_cons, readArr,
    h1, h2, h3, h4, h5, h6]

/-! ### Key-order insensitivity -/

theorem jsonPermEntries_keys {l m : List (String × Json)}
    (h : JsonPermEntries l m) : l.map Prod.fst = m.map Prod.fst := by
  induction l generalizing m with
  | nil => cases h; rfl
  | cons p t ih =>
    cases h with
    | cons k hv ht => simp [ih ht]

theorem jsonPermEntries_lookup {l m : List (String × Json)}
    (h : JsonPermEntries l m) (k : String) :
    (jlookup k l = none ∧ jlookup k m = none) ∨
      ∃ v w, jlookup k l = some v ∧ jlookup k m = some w ∧ JsonPerm v w := by
  induction l generalizing m with
  | nil =>
    cases h
    exact Or.inl ⟨rfl, rfl⟩
  | cons p t ih =>
    cases h with
    | cons k2 hv ht =>
      by_cases hk : k2 = k
      · exact Or.inr ⟨_, _, by simp [jlookup_cons, hk],
          by simp [jlookup_cons, hk], hv⟩
      · rcases ih ht with ⟨h1, h2⟩ | ⟨v2, w2, h1, h2, hp⟩
        · exact Or.inl ⟨by simp [jlookup_cons, hk, h1],
            by simp [jlookup_cons, hk, h2]⟩
        · exact Or.inr ⟨v2, w2, by simp [jlookup_cons, hk, h1],
            by simp [jlookup_cons, hk, h2], hp⟩

theorem keys_nodup_unique {l : List (String × Json)}
    (h : (l.map Prod.fst).Nodup) :
    ∀ p ∈ l, ∀ q ∈ l, p.1 = q.1 → p = q := by
  induction l with
  | nil => intro p hp; cases hp
  | cons a t ih =>
    rw [List.map_cons, List.nodup_cons] at h
    intro p hp q hq he
    rcases List.mem_cons.mp hp with rfl | hp2 <;>
      rcases List.mem_cons.mp hq with rfl | hq2
    · rfl
    · exact absurd (List.mem_map_of_mem Prod.fst hq2) (he ▸ h.1)
    · exact absurd (List.mem_map_of_mem Prod.fst hp2) (he ▸ h.1)
    · exact ih h.2 p hp2 q hq2 he

theorem find?_eq_some_of_unique {p : α → Bool} {l : List α} {a : α}
    (ha : a ∈ l) (hpa : p a = true)
    (huniq : ∀ b ∈ l, p b = true → b = a) : l.find? p = some a := by
  induction l with
  | nil => cases ha
  | cons x t ih =>
    by_cases hx : p x = true
    · rw [List.find?_cons_of_pos t hx, huniq x (List.mem_cons_self x t) hx]
    · rw [List.find?_cons_of_neg t hx]
      rcases List.mem_cons.mp ha with rfl | ha2
      · exact absurd hpa hx
      · exact ih ha2 (fun b hb => huniq b (List.mem_cons_of_mem x hb))

theorem jlookup_perm {m l2 : List (String × Json)}
    (hnd : (m.map Prod.fst).Nodup) (hP : m.Perm l2) (k : String) :
    jlookup k l2 = jlookup k m := by
  cases h : jlookup k m with
  | none =>
    have hf : m.find? (fun p => p.1 = k) = none :=
      Option.map_eq_none'.mp h
    have hnone := List.find?_eq_none.mp hf
    have hf2 : l2.find? (fun p => p.1 = k) = none :=
      List.find?_eq_none.mpr (fun p hp => hnone p ((hP.mem_iff).mpr hp))
    simp [jlookup, hf2]
  | some v =>
    obtain ⟨e, hfind, hev⟩ := Option.map_eq_some'.mp h
    have hem : e ∈ m := List.mem_of_find?_eq_some hfind
    have hek0 := List.find?_some hfind
    have hek : e.1 = k := by simpa using hek0
    have hel2 : e ∈ l2 := (hP.mem_iff).mp hem
    have hnd2 : (l2.map Prod.fst).Nodup :=
      ((hP.map Prod.fst).nodup_iff).mp hnd
    have hfind2 : l2.find? (fun p => p.1 = k) = some e := by
      refine find?_eq_some_of_unique hel2 (by simp [hek]) ?_
      intro b hb hbk
      have hbk2 : b.1 = k := by simpa using hbk
      exact keys_nodup_unique hnd2 b hb e hel2 (by rw [hbk2, hek])
    simp [jlookup, hfind2, hev]

theorem jlookup_mem {l : List (String × Json)} {k : String} {v : Json}
    (h : jlookup k l = some v) : (k, v) ∈ l := by
  obtain ⟨e, hfind, hev⟩ := Option.map_eq_some'.mp h
  have hek0 := List.find?_some hfind
  have hek : e.1 = k := by simpa using hek0
  have hkv : (k, v) = e := by
    obtain ⟨e1, e2⟩ := e
    simp only at hek hev
    rw [hek, hev]
  exact hkv ▸ List.mem_of_find?_eq_some hfind

theorem jsonPerm_leaf_eq {v w : Json} (h : JsonPerm v w) (hl : IsLeaf v) :
    w = v := by
  cases h <;> first | rfl | exact absurd hl (by simp [IsLeaf])

/-! ### Serialized records have primitive field values and distinct keys -/

theorem leaf_append {l1 l2 : List (String × Json)}
    (h1 : ∀ p ∈ l1, IsLeaf p.2) (h2 : ∀ p ∈ l2, IsLeaf p.2) :
    ∀ p ∈ l1 ++ l2, IsLeaf p.2 := by
  intro p hp
  rcases List.mem_append.mp hp with h | h
  exacts [h1 p h, h2 p h]

theorem leaf_optNum (k : String) (v : Option Rat) :
    ∀ p ∈ optNum k v, IsLeaf p.2 := by
  cases v <;> simp [optNum, IsLeaf]

theorem leaf_optStr (k : String) (v : Option String) :
    ∀ p ∈ optStr k v, IsLeaf p.2 := by
  cases v <;> simp [optStr, IsLeaf]

theorem keys_append_sublist {l1 l2 : List (String × Json)}
    {s1 s2 : List String} (h1 : (l1.map Prod.fst).Sublist s1)
    (h2 : (l2.map Prod.fst).Sublist s2) :
    ((l1 ++ l2).map Prod.fst).Sublist (s1 ++ s2) := by
  rw [List.map_append]
  exact h1.append h2

theorem keys_optNum (k : String) (v : Option Rat) :
    ((optNum k v).map Prod.fst).Sublist [k] := by
  cases v <;> simp [optNum]

theorem keys_optStr (k : String) (v : Option String) :
    ((optStr k v).map Prod.fst).Sublist [k] := by
  cases v <;> simp [optStr]

theorem bloodEntries_leaf (b : BloodPanel) :
    ∀ p ∈ bloodEntries b, IsLeaf p.2 := by
  simp only [bloodEntries, List.forall_mem_append]
  repeat' apply And.intro
  all_goals
    first
      | exact leaf_optNum _ _
      | exact leaf_optStr _ _
      | simp [IsLeaf]

theorem bloodEntries_keys (b : BloodPanel) :
    ((bloodEntries b).map Prod.fst).Sublist
      (["id", "date"] ++ ["lab"] ++ ["apoB"] ++ ["ldl"] ++ ["hdl"] ++
        ["tg"] ++ ["lpa"] ++ ["hscrp"] ++ ["a1c"] ++ ["fastingGlucose"] ++
        ["fastingInsulin"] ++ ["alt"] ++ ["ast"] ++ ["creatinine"] ++
        ["egfr"] ++ ["uric"] ++ ["tsh"] ++ ["ft4"] ++ ["vitaminD"] ++
        ["ferritin"] ++ ["b12"] ++ ["folate"] ++ ["notes"]) := by
  unfold bloodEntries
  repeat' apply keys_append_sublist
  all_goals
    first
      | exact keys_optNum _ _
      | exact keys_optStr _ _
      | exact List.Sublist.refl _

theorem bloodEntries_keys_nodup (b : BloodPanel) :
    ((bloodEntries b).map Prod.fst).Nodup :=
  (bloodEntries_keys b).nodup (by decide)

theorem imagingEntries_leaf (x : ImagingStudy) :
    ∀ p ∈ imagingEntries x, IsLeaf p.2 := by
  simp only [imagingEntries, List.forall_mem_append]
  repeat' apply And.intro
  all_goals
    first
      | exact leaf_optNum _ _
      | exact leaf_optStr _ _
      | simp [IsLeaf]

theorem imagingEntries_keys (x : ImagingStudy) :
    ((imagingEntries x).map Prod.fst).Sublist
      (["id", "date", "type"] ++ ["resultSummary"] ++ ["numericResult"] ++
        ["site"]) := by
  unfold imagingEntries
  repeat' apply keys_append_sublist
  all_goals
    first
      | exact keys_optNum _ _
      | exact keys_optStr _ _
      | exact List.Sublist.refl _

theorem imagingEntries_keys_nodup (x : ImagingStudy) :
    ((imagingEntries x).map Prod.fst).Nodup :=
  (imagingEntries_keys x).nodup (by decide)

theorem vitalsEntries_leaf (v : Vitals) :
    ∀ p ∈ vitalsEntries v, IsLeaf p.2 := by
  simp only [vitalsEntries, List.forall_mem_append]
  repeat' apply And.intro
  all_goals
    first
      | exact leaf_optNum _ _
      | exact leaf_optStr _ _
      | simp [IsLeaf]

theorem vitalsEntries_keys (v : Vitals) :
    ((vitalsEntries v).map Prod.fst).Sublist
      (["id", "date"] ++ ["weightKg"] ++ ["waistCm"] ++ ["heightCm"] ++
        ["systolic"] ++ ["diastolic"] ++ ["restingHR"] ++ ["hrv"]) := by
  unfold vitalsEntries
  repeat' apply keys_append_sublist
  all_goals
    first
      | exact keys_optNum _ _
      | exact keys_optStr _ _
      | exact List.Sublist.refl _

theorem vitalsEntries_keys_nodup (v : Vitals) :
    ((vitalsEntries v).map Prod.fst).Nodup :=
  (vitalsEntries_keys v).nodup (by decide)

theorem fitnessEntries_leaf (f : FitnessTest) :
    ∀ p ∈ fitnessEntries f, IsLeaf p.2 := by
  simp only [fitnessEntries, List.forall_mem_append]
  repeat' apply And.intro
  all_goals
    first
      | exact leaf_optNum _ _
      | exact leaf_optStr _ _
      | simp [IsLeaf]

theorem fitnessEntries_keys (f : FitnessTest) :
    ((fitnessEntries f).map Prod.fst).Sublist
      (["id", "date"] ++ ["vo2max"] ++ ["gripLeft"] ++ ["gripRight"] ++
        ["sitToStand1min"] ++ ["zone2MinsPerWeek"] ++
        ["vigorousMinsPerWeek"]) := by
  unfold fitnessEntries
  repeat' apply keys_append_sublist
  all_goals
    first
      | exact keys_optNum _ _
      | exact keys_optStr _ _
      | exact List.Sublist.refl _

theorem fitnessEntries_keys_nodup (f : FitnessTest) :
    ((fitnessEntries f).map Prod.fst).Nodup :=
  (fitnessEntries_keys f).nodup (by decide)

theorem medEntries_leaf (m : MedOrSupp) :
    ∀ p ∈ medEntries m, IsLeaf p.2 := by
  simp only [medEntries, List.forall_mem_append]
  repeat' apply And.intro
  all_goals
    first
      | exact leaf_optNum _ _
      | exact leaf_optStr _ _
      | simp [IsLeaf]

theorem medEntries_keys (m : MedOrSupp) :
    ((medEntries m).map Prod.fst).Sublist
      (["id", "date", "kind", "name"] ++ ["dose"] ++ ["notes"]) := by
  unfold medEntries
  repeat' apply keys_append_sublist
  all_goals
    first
      | exact keys_optNum _ _
      | exact keys_optStr _ _
      | exact List.Sublist.refl _

theorem medEntries_keys_nodup (m : MedOrSupp) :
    ((medEntries m).map Prod.fst).Nodup :=
  (medEntries_keys m).nodup (by decide)

theorem noteEntries_leaf (n : Note) : ∀ p ∈ noteEntries n, IsLeaf p.2 := by
  simp [noteEntries, IsLeaf]

theorem noteEntries_keys_nodup (n : Note) :
    ((noteEntries n).map Prod.fst).Nodup := by
  simp [noteEntries]

/-! ### Readers are invariant under object key reordering -/

theorem bloodFromJson_congr {l l2 : List (String × Json)}
    (h : ∀ k, jlookup k l = jlookup k l2) :
    bloodFromJson (Json.obj l) = bloodFromJson (Json.obj l2) := by
  simp only [bloodFromJson, h]

theorem imagingFromJson_congr {l l2 : List (String × Json)}
    (h : ∀ k, jlookup k l = jlookup k l2) :
    imagingFromJson (Json.obj l) = imagingFromJson (Json.obj l2) := by
  simp only [imagingFromJson, h]

theorem vitalsFromJson_congr {l l2 : List (String × Json)}
    (h : ∀ k, jlookup k l = jlookup k l2) :
    vitalsFromJson (Json.obj l) = vitalsFromJson (Json.obj l2) := by
  simp only [vitalsFromJson, h]

theorem fitnessFromJson_congr {l l2 : List (String × Json)}
    (h : ∀ k, jlookup k l = jlookup k l2) :
    fitnessFromJson (Json.obj l) = fitnessFromJson (Json.obj l2) := by
  simp only [fitnessFromJson, h]

theorem medFromJson_congr {l l2 : List (String × Json)}
    (h : ∀ k, jlookup k l = jlookup k l2) :
    medFromJson (Json.obj l) = medFromJson (Json.obj l2) := by
  simp only [medFromJson, h]

theorem noteFromJson_congr {l l2 : List (String × Json)}
    (h : ∀ k, jlookup k l = jlookup k l2) :
    noteFromJson (Json.obj l) = noteFromJson (Json.obj l2) := by
  simp only [noteFromJson, h]

/-- Lookups in an object whose entry values are all primitive coincide
with lookups in any key-reordering of it. -/
theorem jlookup_eq_of_perm_leaf {ents m l2 : List (String × Json)}
    (hleaf : ∀ p ∈ ents, IsLeaf p.2)
    (hnd : (ents.map Prod.fst).Nodup)
    (hF : JsonPermEntries ents m) (hP : m.Perm l2) :
    ∀ k, jlookup k l2 = jlookup k ents := by
  intro k
  have hndm : (m.map Prod.fst).Nodup := jsonPermEntries_keys hF ▸ hnd
  rw [jlookup_perm hndm hP k]
  rcases jsonPermEntries_lookup hF k with ⟨h1, h2⟩ | ⟨v, w2, h1, h2, hvw⟩
  · rw [h1, h2]
  · have hlv : IsLeaf v := hleaf (k, v) (jlookup_mem h1)
    rw [h1, h2, jsonPerm_leaf_eq hvw hlv]

theorem bloodFromJson_perm {b : BloodPanel} {w : Json}
    (h : JsonPerm (bloodToJson b) w) : bloodFromJson w = some b := by
  have hleaf := bloodEntries_leaf b
  have hnd := bloodEntries_keys_nodup b
  obtain ⟨ents, hE⟩ : ∃ ents, bloodEntries b = ents := ⟨_, rfl⟩
  rw [hE] at hleaf hnd
  rw [show bloodToJson b = Json.obj (bloodEntries b) from rfl, hE] at h
  cases h with
  | obj hF hP =>
    rw [bloodFromJson_congr (jlookup_eq_of_perm_leaf hleaf hnd hF hP), ← hE]
    exact bloodFromJson_toJson b

theorem imagingFromJson_perm {x : ImagingStudy} {w : Json}
    (h : JsonPerm (imagingToJson x) w) : imagingFromJson w = some x := by
  have hleaf := imagingEntries_leaf x
  have hnd := imagingEntries_keys_nodup x
  obtain ⟨ents, hE⟩ : ∃ ents, imagingEntries x = ents := ⟨_, rfl⟩
  rw [hE] at hleaf hnd
  rw [show imagingToJson x = Json.obj (imagingEntries x) from rfl, hE] at h
  cases h with
  | obj hF hP =>
    rw [imagingFromJson_congr (jlookup_eq_of_perm_leaf hleaf hnd hF hP), ← hE]
    exact imagingFromJson_toJson x

theorem vitalsFromJson_perm {v : Vitals} {w : Json}
    (h : JsonPerm (vitalsToJson v) w) : vitalsFromJson w = some v := by
  have hleaf := vitalsEntries_leaf v
  have hnd := vitalsEntries_keys_nodup v
  obtain ⟨ents, hE⟩ : ∃ ents, vitalsEntries v = ents := ⟨_, rfl⟩
  rw [hE] at hleaf hnd
  rw [show vitalsToJson v = Json.obj (vitalsEntries v) from rfl, hE] at h
  cases h with
  | obj hF hP =>
    rw [vitalsFromJson_congr (jlookup_eq_of_perm_leaf hleaf hnd hF hP), ← hE]
    exact vitalsFromJson_toJson v

theorem fitnessFromJson_perm {f : FitnessTest} {w : Json}
    (h : JsonPerm (fitnessToJson f) w) : fitnessFromJson w = some f := by
  have hleaf := fitnessEntries_leaf f
  have hnd := fitnessEntries_keys_nodup f
  obtain ⟨ents, hE⟩ : ∃ ents, fitnessEntries f = ents := ⟨_, rfl⟩
  rw [hE] at hleaf hnd
  rw [show fitnessToJson f = Json.obj (fitnessEntries f) from rfl, hE] at h
  cases h with
  | obj hF hP =>
    rw [fitnessFromJson_congr (jlookup_eq_of_perm_leaf hleaf hnd hF hP), ← hE]
    exact fitnessFromJson_toJson f

theorem medFromJson_perm {m : MedOrSupp} {w : Json}
    (h : JsonPerm (medToJson m) w) : medFromJson w = some m := by
  have hleaf := medEntries_leaf m
  have hnd := medEntries_keys_nodup m
  obtain ⟨ents, hE⟩ : ∃ ents, medEntries m = ents := ⟨_, rfl⟩
  rw [hE] at hleaf hnd
  rw [show medToJson m = Json.obj (medEntries m) from rfl, hE] at h
  cases h with
  | obj hF hP =>
    rw [medFromJson_congr (jlookup_eq_of_perm_leaf hleaf hnd hF hP), ← hE]
    exact medFromJson_toJson m

theorem noteFromJson_perm {n : Note} {w : Json}
    (h : JsonPerm (noteToJson n) w) : noteFromJson w = some n := by
  have hleaf := noteEntries_leaf n
  have hnd := noteEntries_keys_nodup n
  obtain ⟨ents, hE⟩ : ∃ ents, noteEntries n = ents := ⟨_, rfl⟩
  rw [hE] at hleaf hnd
  rw [show noteToJson n = Json.obj (noteEntries n) from rfl, hE] at h
  cases h with
  | obj hF hP =>
    rw [noteFromJson_congr (jlookup_eq_of_perm_leaf hleaf hnd hF hP), ← hE]
    exact noteFromJson_toJson n

theorem jsonPermList_mapRead {f : Json → Option α} {g : α → Json}
    (hrec : ∀ (a : α) (w : Json), JsonPerm (g a) w → f w = some a)
    {l : List α} {ws : List Json} (h : JsonPermList (l.map g) ws) :
    mapRead f ws = some l := by
  induction l generalizing ws with
  | nil =>
    cases h
    rfl
  | cons a t ih =>
    cases h with
    | cons hv ht => simp [mapRead, hrec a _ hv, ih ht]

theorem collection_perm_read {f : Json → Option α} {g : α → Json}
    (hrec : ∀ (a : α) (w : Json), JsonPerm (g a) w → f w = some a)
    {l : List α} {w : Json} (h : JsonPerm (Json.arr (l.map g)) w) :
    readArr (some w) f = some l := by
  obtain ⟨x, hx⟩ : ∃ x, l.map g = x := ⟨_, rfl⟩
  rw [hx] at h
  cases h with
  | arr hl =>
    rw [← hx] at hl
    simp [readArr, jsonPermList_mapRead hrec hl]

/-- Claim C2: reading back the serialization of any ledger — or any JSON
document differing from it only in object key order — recovers a ledger
with the same six collections containing the same records, identifiers,
dates and optional fields (absent stays absent); in fact exactly the same
ledger. -/
theorem serialize_roundtrip_keyPerm (L : Ledger) (j : Json)
    (h : JsonPerm (ledgerToJson L) j) : jsonToLedger j = some L := by
  have hb : jlookup "bloods" (ledgerEntries L) =
      some (Json.arr (L.bloods.map bloodToJson)) := by
    simp [ledgerEntries, jlookup_cons]
  have hi : jlookup "imaging" (ledgerEntries L) =
      some (Json.arr (L.imaging.map imagingToJson)) := by
    simp [ledgerEntries, jlookup_cons]
  have hv : jlookup "vitals" (ledgerEntries L) =
      some (Json.arr (L.vitals.map vitalsToJson)) := by
    simp [ledgerEntries, jlookup_cons]
  have hf : jlookup "fitness" (ledgerEntries L) =
      some (Json.arr (L.fitness.map fitnessToJson)) := by
    simp [ledgerEntries, jlookup_cons]
  have hm : jlookup "meds" (ledgerEntries L) =
      some (Json.arr (L.meds.map medToJson)) := by
    simp [ledgerEntries, jlookup_cons]
  have hn : jlookup "notes" (ledgerEntries L) =
      some (Json.arr (L.notes.map noteToJson)) := by
    simp [ledgerEntries, jlookup_cons]
  have hnd : ((ledgerEntries L).map Prod.fst).Nodup := by
    simp only [ledgerEntries, List.map_cons, List.map_nil]
    decide
  obtain ⟨ents, hE⟩ : ∃ e, ledgerEntries L = e := ⟨_, rfl⟩
  rw [hE] at hb hi hv hf hm hn hnd
  rw [show ledgerToJson L = Json.obj (ledgerEntries L) from rfl, hE] at h
  cases h with
  | obj hF hP =>
    rename_i m l2
    have hndm := jsonPermEntries_keys hF ▸ hnd
    have key : ∀ (k : String) (X : Json), jlookup k ents = some X →
        ∃ w2, jlookup k l2 = some w2 ∧ JsonPerm X w2 := by
      intro k X hk
      rw [jlookup_perm hndm hP k]
      rcases jsonPermEntries_lookup hF k with ⟨h1, _⟩ | ⟨v, w2, h1, h2, hvw⟩
      · rw [hk] at h1; cases h1
      · rw [hk] at h1
        injection h1 with h1
        subst h1
        exact ⟨w2, h2, hvw⟩
    obtain ⟨wb, hwb, hpb⟩ := key "bloods" _ hb
    obtain ⟨wi, hwi, hpi⟩ := key "imaging" _ hi
    obtain ⟨wv, hwv, hpv⟩ := key "vitals" _ hv
    obtain ⟨wf, hwf, hpf⟩ := key "fitness" _ hf
    obtain ⟨wm, hwm, hpm⟩ := key "meds" _ hm
    obtain ⟨wn, hwn, hpn⟩ := key "notes" _ hn
    simp only [jsonToLedger]
    rw [hwb, hwi, hwv, hwf, hwm, hwn,
      collection_perm_read (fun a w hp => bloodFromJson_perm hp) hpb,
      collection_perm_read (fun a w hp => imagingFromJson_perm hp) hpi,
      collection_perm_read (fun a w hp => vitalsFromJson_perm hp) hpv,
      collection_perm_read (fun a w hp => fitnessFromJson_perm hp) hpf,
      collection_perm_read (fun a w hp => medFromJson_perm hp) hpm,
      collection_perm_read (fun a w hp => noteFromJson_perm hp) hpn]

/-- Witness for C2: a two-record ledger whose serialization, reordered at
the top level (imaging before bloods) and inside the blood panel (date
before id), still reads back as exactly the original ledger. -/
theorem serialize_roundtrip_keyPerm_witness :
    JsonPerm (ledgerToJson w2Ledger) w2Json ∧
      jsonToLedger w2Json = some w2Ledger := by
  have hp : JsonPerm (ledgerToJson w2Ledger) w2Json := by
    show JsonPerm
      (Json.obj
        [("bloods", Json.arr [Json.obj
            [("id", Json.str "b1"), ("date", Json.str "2024-01-10"),
             ("apoB", Json.num 85)]]),
         ("imaging", Json.arr []), ("vitals", Json.arr []),
         ("fitness", Json.arr []), ("meds", Json.arr []),
         ("notes", Json.arr [Json.obj
            [("id", Json.str "n1"), ("date", Json.str "2024-01-11"),
             ("text", Json.str "hello")]])])
      (Json.obj
        [("imaging", Json.arr []),
         ("bloods", Json.arr [Json.obj
            [("date", Json.str "2024-01-10"), ("id", Json.str "b1"),
             ("apoB", Json.num 85)]]),
         ("vitals", Json.arr []), ("fitness", Json.arr []),
         ("meds", Json.arr []),
         ("notes", Json.arr [Json.obj
            [("id", Json.str "n1"), ("date", Json.str "2024-01-11"),
             ("text", Json.str "hello")]])])
    have hF := JsonPermEntries.cons "bloods"
        (JsonPerm.arr (JsonPermList.cons
          (JsonPerm.obj
            (JsonPermEntries.cons "id" (JsonPerm.str "b1")
              (JsonPermEntries.cons "date" (JsonPerm.str "2024-01-10")
                (JsonPermEntries.cons "apoB" (JsonPerm.num 85)
                  JsonPermEntries.nil)))
            (List.Perm.swap ("date", Json.str "2024-01-10")
              ("id", Json.str "b1") [("apoB", Json.num 85)]))
          JsonPermList.nil))
        (JsonPermEntries.cons "imaging" (JsonPerm.arr JsonPermList.nil)
          (JsonPermEntries.cons "vitals" (JsonPerm.arr JsonPermList.nil)
            (JsonPermEntries.cons "fitness" (JsonPerm.arr JsonPermList.nil)
              (JsonPermEntries.cons "meds" (JsonPerm.arr JsonPermList.nil)
                (JsonPermEntries.cons "notes"
                  (JsonPerm.arr (JsonPermList.cons
                    (JsonPerm.obj
                      (JsonPermEntries.cons "id" (JsonPerm.str "n1")
                        (JsonPermEntries.cons "date"
                          (JsonPerm.str "2024-01-11")
                          (JsonPermEntries.cons "text"
                            (JsonPerm.str "hello")
                            JsonPermEntries.nil)))
                      (List.Perm.refl
                        [("id", Json.str "n1"),
                         ("date", Json.str "2024-01-11"),
                         ("text", Json.str "hello")]))
                    JsonPermList.nil))
                  JsonPermEntries.nil)))))
    exact JsonPerm.obj hF (List.Perm.swap _ _ _)
  exact ⟨hp, serialize_roundtrip_keyPerm w2Ledger w2Json hp⟩

/-! ### Loading a profile's slot (claim C4) -/

/-- Amended claim C4 (holds for the feature-complete variant's `loadFor`,
which wraps the parse in try/catch): absent slot and unparseable slot both
yield the canonical empty ledger, with no error channel in the type;
parseable content is returned as persisted, and when the slot holds the
serialization of a ledger, that ledger is recovered exactly.  (As stated,
the claim also covered the minimal variant, whose load effect does not
catch the parse failure; see the counterexample.) -/
theorem loadFor_total_spec (storage : String → Option String)
    (p : Profile) :
    (storage (storageKey p) = none →
        loadFor storage p = ledgerToJson EMPTY) ∧
    (∀ raw, storage (storageKey p) = some raw → parseJson raw = none →
        loadFor storage p = ledgerToJson EMPTY) ∧
    (∀ raw j, storage (storageKey p) = some raw → parseJson raw = some j →
        loadFor storage p = j) ∧
    (∀ raw L, storage (storageKey p) = some raw →
        parseJson raw = some (ledgerToJson L) →
        jsonToLedger (loadFor storage p) = some L) := by
  have hempty : parseJson "" = none := rfl
  refine ⟨?_, ?_, ?_, ?_⟩
  · intro h
    simp [loadFor, h]
  · intro raw h hp
    by_cases he : raw = "" <;> simp [loadFor, h, he, hp]
  · intro raw j h hp
    have hne : raw ≠ "" := by
      intro e
      rw [e, hempty] at hp
      cases hp
    simp [loadFor, h, hne, hp]
  · intro raw L h hp
    have hne : raw ≠ "" := by
      intro e
      rw [e, hempty] at hp
      cases hp
    simp [loadFor, h, hne, hp, jsonToLedger_ledgerToJson]

/-- Witness for C4 at a concrete storage state: Paul's slot holds a valid
serialized empty ledger and is loaded back exactly; Claire's slot is
absent and loads as the empty ledger. -/
theorem loadFor_total_spec_witness :
    loadFor w4storage Profile.paul = ledgerToJson EMPTY ∧
      jsonToLedger (loadFor w4storage Profile.paul) = some EMPTY ∧
      loadFor w4storage Profile.claire = ledgerToJson EMPTY := by
  refine ⟨?_, ?_, ?_⟩
  · exact (loadFor_total_spec w4storage Profile.paul).2.2.1
      "\x7b\"bloods\":[],\"imaging\":[],\"vitals\":[],\"fitness\":[],\"meds\":[],\"notes\":[]\x7d"
      (ledgerToJson EMPTY) rfl (by with_unfolding_all rfl)
  · exact (loadFor_total_spec w4storage Profile.paul).2.2.2
      "\x7b\"bloods\":[],\"imaging\":[],\"vitals\":[],\"fitness\":[],\"meds\":[],\"notes\":[]\x7d"
      EMPTY rfl (by with_unfolding_all rfl)
  · exact (loadFor_total_spec w4storage Profile.claire).1
      (by with_unfolding_all rfl)

/-- Counterexample to claim C4 as stated: in the minimal variant the load
effect calls `JSON.parse` with no try/catch, so a slot holding text that
is not valid JSON makes the load throw (modelled `none`) instead of
silently yielding the canonical empty ledger. -/
theorem loadEffectP0_throws_cex :
    w4badStorage (storageKey Profile.paul) = some "oops" ∧
      parseJson "oops" = none ∧
      loadEffectP0 w4badStorage Profile.paul = none := by
  refine ⟨by with_unfolding_all rfl, rfl, by with_unfolding_all rfl⟩

/-! ### Identifier uniqueness (claim C9) -/

theorem idsIn_addRecord_withId (L : Ledger) (r : Rec) (i : String)
    (c : CollName) :
    idsIn (addRecord L (r.withId i)) c =
      if c = r.coll then idsIn L c ++ [i] else idsIn L c := by
  cases r <;> cases c <;> simp [addRecord, Rec.withId, Rec.coll, idsIn]

/-- Amended claim C9: provided the client-side generator never returns the
same string twice (an assumption `Math.random` does not actually
guarantee — see the counterexample), every ledger state reachable through
the record-creation operations has identifiers unique within each
collection. -/
theorem reachable_ids_nodup_of_injective (supply : Nat → String)
    (hinj : Function.Injective supply) (s : GenState)
    (h : ReachableGen supply s) : NodupIds s.db := by
  suffices H : (∀ c, (idsIn s.db c).Nodup) ∧
      (∀ c i, i ∈ idsIn s.db c → ∃ k, k < s.ctr ∧ supply k = i) by
    obtain ⟨h1, _⟩ := H
    exact ⟨h1 .bloods, h1 .imaging, h1 .vitals, h1 .fitness, h1 .meds,
      h1 .notes⟩
  induction h with
  | init =>
    constructor
    · intro c
      cases c <;> simp [idsIn, EMPTY]
    · intro c i hi
      cases c <;> simp [idsIn, EMPTY] at hi
  | step s r hr ih =>
    obtain ⟨ih1, ih2⟩ := ih
    have key : ∀ c, idsIn (createStep supply s r).db c =
        if c = r.coll then idsIn s.db c ++ [supply s.ctr]
        else idsIn s.db c :=
      fun c => idsIn_addRecord_withId s.db r (supply s.ctr) c
    have hctr : (createStep supply s r).ctr = s.ctr + 1 := rfl
    constructor
    · intro c
      rw [key c]
      by_cases hc : c = r.coll
      · rw [if_pos hc]
        have hnotin : supply s.ctr ∉ idsIn s.db c := by
          intro hmem
          obtain ⟨k, hk, he⟩ := ih2 c _ hmem
          exact absurd (hinj he) (Nat.ne_of_lt hk)
        rw [List.nodup_append]
        refine ⟨ih1 c, List.nodup_singleton _, ?_⟩
        intro x hx hx2
        rw [List.mem_singleton] at hx2
        exact hnotin (hx2 ▸ hx)
      · rw [if_neg hc]
        exact ih1 c
    · intro c i hi
      rw [key c] at hi
      rw [hctr]
      by_cases hc : c = r.coll
      · rw [if_pos hc] at hi
        rcases List.mem_append.mp hi with hmem | hmem
        · obtain ⟨k, hk, he⟩ := ih2 c i hmem
          exact ⟨k, Nat.lt_succ_of_lt hk, he⟩
        · rw [List.mem_singleton] at hmem
          exact ⟨s.ctr, Nat.lt_succ_self _, hmem.symm⟩
      · rw [if_neg hc] at hi
        obtain ⟨k, hk, he⟩ := ih2 c i hi
        exact ⟨k, Nat.lt_succ_of_lt hk, he⟩

/-- Witness for C9 (amended) at a concrete injective supply and the state
reached by one record creation. -/
theorem reachable_ids_nodup_of_injective_witness :
    Function.Injective natSupply ∧ ReachableGen natSupply wGenState ∧
      NodupIds wGenState.db := by
  have hinj : Function.Injective natSupply := by
    intro m n h
    simpa [natSupply] using congrArg (fun s => s.data.length) h
  exact ⟨hinj, ReachableGen.step _ wNote ReachableGen.init,
    reachable_ids_nodup_of_injective natSupply hinj wGenState
      (ReachableGen.step _ wNote ReachableGen.init)⟩

/-- Counterexample to claim C9 as stated: `Math.random` may repeat a
value, and the code never checks for collisions; under a supply that
repeats, the state reached by saving two records holds two records with
the same identifier in one collection. -/
theorem reachable_dup_ids_cex :
    ReachableGen constSupply wDupState ∧ ¬NodupIds wDupState.db :=
  ⟨ReachableGen.step _ wNote (ReachableGen.step _ wNote ReachableGen.init),
   by unfold NodupIds; decide⟩
